import Mathlib

/-!
Shallow embedding of the northstar container runtime core
(state engine, island launcher, api client loop, wire codec)
together with theorems settling the specification claims.

Sources embedded: `src/northstar/src/runtime/state.rs`,
`src/northstar/src/runtime/island/mod.rs`, `src/northstar/src/runtime/error.rs`,
`src/northstar/src/api/client.rs`, `src/northstar/src/api/codec.rs`.
Types that live outside the provided sources (`api::model`, the npk
`Manifest`, `Container`) are modelled from the specification as noted in
their doc comments.
-/

namespace Northstar

/-- Modelled from the spec: a three-part semantic version
(`npk::manifest::Version`, not under src/). -/
structure Version where
  major : Nat
  minor : Nat
  patch : Nat
deriving DecidableEq

/-- Modelled from the spec: container identity, a pair of name and version
(`northstar::runtime::Container`, not under src/). -/
structure Container where
  name : String
  version : Version
deriving DecidableEq

/-- Modelled from the spec: one entry of the manifest mount table, keyed by
the in-container path. Variants: bind from host path, tmpfs of fixed size,
persistent data directory, resource reference (name, version, sub path). -/
inductive Mount where
  | bind (host : String)
  | tmpfs (size : Nat)
  | persist
  | resource (name : String) (version : Version) (dir : String)
deriving DecidableEq

/-- Modelled from the spec: optional cgroup limits of a manifest. -/
structure CGroupLimits where
  memory : Option Nat
  cpuShares : Option Nat
deriving DecidableEq

/-- Modelled from the spec: the immutable per-package manifest
(`npk::manifest::Manifest`, not under src/): name, version, optional init
path (absence means resource container), optional args, env, uid, gid,
supplementary groups, mount table, seccomp allow list, cgroup limits. -/
structure Manifest where
  name : String
  version : Version
  init : Option String
  args : Option (List String)
  env : Option (List (String × String))
  uid : Option Nat
  gid : Option Nat
  supplGroups : Option (List String)
  mounts : List (String × Mount)
  seccomp : Option (List String)
  cgroups : Option CGroupLimits
deriving DecidableEq

/-- `runtime::state::BlockDevice`: loop device or dm-verity device path. -/
inductive BlockDevice where
  | loopback (path : String)
  | verity (path : String)
deriving DecidableEq

/-- `runtime::ExitStatus` (modelled from the spec, not under src/): normal
exit with code, or termination by signal. Signals are their Linux numbers. -/
inductive ExitStatus where
  | exit (code : Int)
  | signaled (signal : Nat)
deriving DecidableEq

/-- `runtime::error::Error` with lower-layer error payloads rendered as
strings. -/
inductive Error where
  | configuration (cause : String)
  | invalidContainer (container : Container)
  | umountBusy (container : Container)
  | startContainerStarted (container : Container)
  | startContainerResource (container : Container)
  | startContainerMissingResource (container : Container) (resource : Container)
  | startContainerFailed (container : Container) (reason : String)
  | stopContainerNotStarted (container : Container)
  | invalidRepository (repository : String)
  | installDuplicate (container : Container)
  | npkError (cause : String) (error : String)
  | consoleError (error : String)
  | cgroupsError (error : String)
  | mountError (error : String)
  | keyError (error : String)
  | ioError (cause : String) (error : String)
  | osError (cause : String) (error : String)
deriving DecidableEq

/-- Modelled from the spec: `api::model::Error` (not under src/), the wire
error taxonomy. Payload shapes follow `impl From<Error> for api::model::Error`
in `runtime/error.rs`. -/
inductive ApiError where
  | configuration (cause : String)
  | invalidContainer (container : Container)
  | umountBusy (container : Container)
  | startContainerStarted (container : Container)
  | startContainerResource (container : Container)
  | startContainerMissingResource (container : Container) (resource : Container)
  | startContainerFailed (container : Container) (reason : String)
  | stopContainerNotStarted (container : Container)
  | invalidRepository (repository : String)
  | installDuplicate (container : Container)
  | npkError (cause : String) (error : String)
  | consoleError (error : String)
  | cgroupsError (error : String)
  | mountError (error : String)
  | keyError (error : String)
  | ioError (error : String)
  | osError (error : String)
deriving DecidableEq

/-- The `From<Error> for api::model::Error` conversion in `runtime/error.rs`.
The wrapped lower-layer errors are stringified; `Io` and `Os` join cause and
error into one string. -/
def Error.toApi : Error → ApiError
  | .configuration c => .configuration c
  | .invalidContainer c => .invalidContainer c
  | .umountBusy c => .umountBusy c
  | .startContainerStarted c => .startContainerStarted c
  | .startContainerResource c => .startContainerResource c
  | .startContainerMissingResource c r => .startContainerMissingResource c r
  | .startContainerFailed c r => .startContainerFailed c r
  | .stopContainerNotStarted c => .stopContainerNotStarted c
  | .invalidRepository r => .invalidRepository r
  | .installDuplicate c => .installDuplicate c
  | .npkError c e => .npkError c e
  | .consoleError e => .consoleError e
  | .cgroupsError e => .cgroupsError e
  | .mountError e => .mountError e
  | .keyError e => .keyError e
  | .ioError c e => .ioError (c ++ ": " ++ e)
  | .osError c e => .osError (c ++ ": " ++ e)

/-- Outcome of a runtime operation: an ordinary value, a typed error
(Rust `Err`), or an aborted process (Rust `panic` / failed `expect`,
recorded with the expect message). -/
inductive RtResult (α : Type) where
  | ok (value : α)
  | err (error : Error)
  | panic (msg : String)
deriving DecidableEq

/-- `runtime::state::ProcessContext`, reduced to the data the engine
inspects: the pid of the launcher process handle and whether a cgroup
was configured (the start instant and debug handle carry no decisions). -/
structure ProcessContext where
  pid : Nat
  cgroups : Option Unit
deriving DecidableEq

/-- `runtime::state::MountedContainer`. -/
structure MountedContainer where
  container : Container
  manifest : Manifest
  root : String
  device : BlockDevice
  process : Option ProcessContext
deriving DecidableEq

/-- An npk package as the engine sees it: its manifest
(`repository.get` hands out `Arc<Npk>`; only the manifest is consulted). -/
structure Npk where
  manifest : Manifest
deriving DecidableEq

/-- One repository: optional verification key (presence decides
verity vs loopback) and its set of packages. -/
structure Repo where
  key : Option Unit
  npks : List Npk
deriving DecidableEq

/-- The container map `HashMap<Container, MountedContainer>` as an
association list (iteration order of the hash map is unspecified in Rust;
the list order stands in for it). -/
abbrev Containers := List (Container × MountedContainer)

/-- `runtime::state::State`: repositories and the container map. -/
structure State where
  repositories : List (String × Repo)
  containers : Containers
deriving DecidableEq

/-- `HashMap::get` on the container map. -/
def Containers.lookup (m : Containers) (c : Container) : Option MountedContainer :=
  (m.find? (fun p => p.1 = c)).map Prod.snd

/-- `HashMap::insert` on the container map: replace an existing entry or
append a new one. -/
def Containers.insert (m : Containers) (c : Container) (mc : MountedContainer) : Containers :=
  if (m.find? (fun p => p.1 = c)).isSome then
    m.map (fun p => if p.1 = c then (c, mc) else p)
  else
    m ++ [(c, mc)]

/-- `HashMap::remove` on the container map. -/
def Containers.erase (m : Containers) (c : Container) : Containers :=
  m.filter (fun p => p.1 ≠ c)

/-- `State::npk`: scan all repositories and return the first package whose
identity matches, together with that repository's optional key. -/
def State.npk (st : State) (container : Container) : Option (Npk × Option Unit) :=
  match st.repositories.findSome?
    (fun r => (r.2.npks.find?
      (fun n => n.manifest.name = container.name ∧ n.manifest.version = container.version)).map
      (fun n => (n, r.2.key))) with
  | some p => some p
  | none => none

/-- The resource references of a manifest's mount table, in table order
(`filter_map` over `manifest.mounts` keeping `Mount::Resource`). -/
def resourceDeps (m : Manifest) : List Container :=
  m.mounts.filterMap (fun e =>
    match e.2 with
    | .resource name version _ => some ⟨name, version⟩
    | _ => none)

/-- Modelled from the spec: `api::model::Memory` process statistics, each
field in bytes. -/
structure Memory where
  size : Nat
  resident : Nat
  shared : Nat
  text : Nat
  data : Nat
deriving DecidableEq

/-- Modelled from the spec: `api::model::Resources`. -/
structure Resources where
  memory : Option Memory
deriving DecidableEq

/-- Modelled from the spec: `api::model::Process` info of a running
container. -/
structure ProcessInfo where
  pid : Nat
  uptime : Nat
  resources : Resources
deriving DecidableEq

/-- Modelled from the spec: `api::model::ContainerData`, one entry of the
`containers()` snapshot. -/
structure ContainerData where
  container : Container
  repository : String
  manifest : Manifest
  process : Option ProcessInfo
  mounted : Bool
deriving DecidableEq

/-- Modelled from the spec: the per-identity result of a bulk mount
(`api::model::MountResult`). -/
inductive MountResult where
  | ok
  | err (error : ApiError)
deriving DecidableEq

/-- Modelled from the spec: the connect handshake messages. -/
inductive Connect where
  | connect (version : Version) (subscribeNotifications : Bool)
  | connectAck
deriving DecidableEq

/-- Modelled from the spec: `api::model::Request`, the client request
variants of the wire protocol. -/
inductive Request where
  | containers
  | repositories
  | start (container : Container)
  | stop (container : Container) (timeout : Nat)
  | mount (containers : List Container)
  | umount (container : Container)
  | install (repository : String) (size : Nat)
  | uninstall (container : Container)
  | shutdown
deriving DecidableEq

/-- Modelled from the spec: `api::model::Response`. -/
inductive Response where
  | containers (containers : List ContainerData)
  | repositories (repositories : List String)
  | mount (results : List (Container × MountResult))
  | ok
  | err (error : ApiError)
deriving DecidableEq

/-- Modelled from the spec: `api::model::Notification`, the unsolicited
server frames. -/
inductive Notification where
  | started (container : Container)
  | stopped (container : Container)
  | exit (container : Container) (status : ExitStatus)
  | outOfMemory (container : Container)
  | install (name : String) (version : Version)
  | uninstalled (name : String) (version : Version)
  | shutdown
deriving DecidableEq

/-- Modelled from the spec: the top-level payload variant of a wire
message. -/
inductive Payload where
  | connect (connect : Connect)
  | request (request : Request)
  | response (response : Response)
  | notification (notification : Notification)
deriving DecidableEq

/-- Modelled from the spec: a wire `Message`, a JSON document with a
top-level `payload` variant. -/
structure Message where
  payload : Payload
deriving DecidableEq

/-- Events the state engine feeds back into the main loop
(`runtime::Event`, reduced to the notification payloads the embedded
operations emit plus the shutdown trigger). -/
inductive Event where
  | started (container : Container)
  | stopped (container : Container)
  | exit (container : Container) (status : ExitStatus)
  | outOfMemory (container : Container)
  | shutdownEvent
deriving DecidableEq

/-- Environment abstracting the engine's collaborators (mount manager,
launcher, cgroups, debug tooling, procfs): each field records the outcome a
given call would produce. The engine code is embedded against this
environment; theorems quantify over it. -/
structure Env where
  runDir : String
  mountResult : Container → Except String String
  umountOk : Container → Bool
  createResult : Container → Except Error Nat
  debugCreate : Container → Except Error Unit
  cgroupsCreateOk : Container → Bool
  cgroupsAssignOk : Container → Bool
  processStart : Container → Except Error Unit
  debugDestroy : Container → Except Error Unit
  cgroupsDestroyOk : Container → Bool
  launcherStop : Container → Except Error ExitStatus
  launcherDestroyOk : Container → Bool
  uptime : Container → Nat
  statm : Nat → Option Memory
  pageSize : Nat

/-- `<name>:<version>`, the run-directory entry name of a container. -/
def containerDirName (c : Container) : String :=
  c.name ++ ":" ++ toString c.version.major ++ "." ++ toString c.version.minor ++ "."
    ++ toString c.version.patch

/-- The mount future of `State::mount`: look up the npk and key, run the
mount control, and wrap the resulting device path as `Verity` when a key is
present, `Loopback` otherwise. Mount-control failures become
`Error::Mount`. -/
def mountOne (env : Env) (st : State) (c : Container) : Except Error MountedContainer :=
  match st.npk c with
  | none => .error (.invalidContainer c)
  | some (npk, key) =>
    match env.mountResult c with
    | .error e => .error (.mountError e)
    | .ok device =>
      .ok { container := c
            manifest := npk.manifest
            root := env.runDir ++ "/" ++ containerDirName c
            device := if key.isSome then .verity device else .loopback device
            process := none }

/-- The loop body of `State::start` inserting one awaited mount result
into the container map (`self.containers.insert(container, mounted_container)`
for the successful ones). -/
def minsertStep (acc : Containers) (p : Container × Except Error MountedContainer) :
    Containers :=
  match p.2 with
  | .ok mc => acc.insert p.1 mc
  | .error _ => acc

/-- The dependency-mount phase of `State::start`: prepare one mount future
per container (the preparation itself can fail with `InvalidContainer` and
aborts everything via `?`), await them all, insert the successful mounts
into the container map, and if any mount failed return the error popped
from the back of the failure list (`failed.pop()`). -/
def mountPhase (env : Env) (st : State) (needMount : List Container) : Option Error × State :=
  match needMount.find? (fun m => (st.npk m).isNone) with
  | some m => (some (.invalidContainer m), st)
  | none =>
    let results := needMount.map (fun m => (m, mountOne env st m))
    let oks := results.filter (fun p => p.2.isOk)
    let failed := results.filter (fun p => !p.2.isOk)
    let containers' := oks.foldl minsertStep st.containers
    let st' := { st with containers := containers' }
    match failed.getLast? with
    | some (_, .error e) => (some e, st')
    | _ => (none, st')

/-- The first resource dependency of the manifest that is neither mounted
nor installed in any repository; `State::start` rejects with
`StartContainerMissingResource` on it. -/
def missingResource (st : State) (npk : Npk) : Option Container :=
  ((resourceDeps npk.manifest).filter (fun r => (st.containers.lookup r).isNone)).find?
    (fun r => (st.npk r).isNone)

/-- The `need_mount` set of `State::start`: the container itself when not
yet mounted, plus its not-yet-mounted resource dependencies. The Rust
`HashSet` is modelled as a list in insertion order with duplicates
removed. -/
def needMountList (st : State) (container : Container) (npk : Npk) : List Container :=
  ((if (st.containers.lookup container).isNone then [container] else []) ++
    (resourceDeps npk.manifest).filter (fun r => (st.containers.lookup r).isNone)).dedup

/-- The tail of `State::start` after a fully successful mount phase: look
up the mounted container (`expect("Internal error")`), run
`Island::create` — whose first step `init_argv` expects a present `init`
and aborts for resource containers — then debug attach, optional cgroup
setup (failures there are `expect`ed), and the start checkpoint. On a
start-checkpoint failure debug and cgroups are destroyed (failures
`expect`ed) and the error returned; on success the process context is
stored and `Started` is emitted. -/
def startLaunch (env : Env) (st : State) (container : Container) :
    RtResult Unit × State × List Event :=
  match st.containers.lookup container with
  | none => (.panic "Internal error", st, [])
  | some mc =>
    if mc.manifest.init.isNone then
      (.panic "Attempt to use init from resource container", st, [])
    else
      match env.createResult container with
      | .error e => (.err e, st, [])
      | .ok pid =>
        match env.debugCreate container with
        | .error e => (.err e, st, [])
        | .ok _ =>
          let cg : Option Unit := if mc.manifest.cgroups.isSome then some () else none
          if mc.manifest.cgroups.isSome && !env.cgroupsCreateOk container then
            (.panic "Failed to create cgroup", st, [])
          else if mc.manifest.cgroups.isSome && !env.cgroupsAssignOk container then
            (.panic "Failed to assign PID to cgroups", st, [])
          else
            match env.processStart container with
            | .error e =>
              match env.debugDestroy container with
              | .error _ => (.panic "Failed to destroy debug", st, [])
              | .ok _ =>
                if cg.isSome && !env.cgroupsDestroyOk container then
                  (.panic "Failed to destroy cgroups", st, [])
                else
                  (.err e, st, [])
            | .ok _ =>
              (.ok (),
               { st with containers :=
                  st.containers.insert container { mc with process := some ⟨pid, cg⟩ } },
               [.started container])

/-- `State::start`: look up the npk (else `InvalidContainer`); if the
container is mounted reject resources and already-running applications;
reject on a missing resource; mount everything missing; then launch. -/
def State.start (env : Env) (st : State) (container : Container) :
    RtResult Unit × State × List Event :=
  match st.npk container with
  | none => (.err (.invalidContainer container), st, [])
  | some (npk, _) =>
    let pre : Option Error :=
      match st.containers.lookup container with
      | some mc =>
        if mc.manifest.init.isNone then some (.startContainerResource container)
        else if mc.process.isSome then some (.startContainerStarted container)
        else none
      | none => none
    match pre with
    | some e => (.err e, st, [])
    | none =>
      match missingResource st npk with
      | some r => (.err (.startContainerMissingResource container r), st, [])
      | none =>
        match mountPhase env st (needMountList st container npk) with
        | (some e, st') => (.err e, st', [])
        | (none, st') => startLaunch env st' container

/-- `filter_map` of the busy-resource scan in `State::umount`: is the
container referenced as a resource in the mount table of any container
that currently has a process? -/
def referencedByRunning (m : Containers) (container : Container) : Bool :=
  m.any (fun p => p.2.process.isSome && (resourceDeps p.2.manifest).any (fun r => r = container))

/-- `State::umount`: a container that is not in the map yields `UmountBusy`;
one with a process yields `UmountBusy`; a resource referenced by a running
container yields `UmountBusy`; otherwise the mount control unmounts (a
failure there is `expect`ed) and the entry is removed from the map. -/
def State.umount (env : Env) (st : State) (container : Container) : RtResult Unit × State :=
  match st.containers.lookup container with
  | none => (.err (.umountBusy container), st)
  | some mc =>
    if mc.process.isSome then (.err (.umountBusy container), st)
    else if mc.manifest.init.isNone && referencedByRunning st.containers container then
      (.err (.umountBusy container), st)
    else if env.umountOk container then
      (.ok (), { st with containers := st.containers.erase container })
    else
      (.panic "Failed to umount", st)

/-- `State::stop`: take the process context if any (else
`StopContainerNotStarted`), then `ProcessContext::terminate`: the
launcher's stop and destroy and the cgroup destruction are `expect`ed
(engine aborts on their failure), a debug destroy failure surfaces as an
error that `State::stop` `expect`s as well; on success `Stopped` is
emitted. -/
def State.stop (env : Env) (st : State) (container : Container) (_timeout : Nat) :
    RtResult Unit × State × List Event :=
  match st.containers.lookup container with
  | some mc =>
    match mc.process with
    | some p =>
      let st' := { st with containers := st.containers.insert container { mc with process := none } }
      match env.launcherStop container with
      | .error _ => (.panic "Failed to terminate process", st', [])
      | .ok _ =>
        if !env.launcherDestroyOk container then (.panic "Failed to destroy process", st', [])
        else
          match env.debugDestroy container with
          | .error _ => (.panic "Failed to stop", st', [])
          | .ok _ =>
            if p.cgroups.isSome && !env.cgroupsDestroyOk container then
              (.panic "Failed to destroy cgroups", st', [])
            else
              (.ok (), st', [.stopped container])
    | none => (.err (.stopContainerNotStarted container), st, [])
  | none => (.err (.stopContainerNotStarted container), st, [])

/-- Modelled from the spec: removing an identity from every repository
(`Repository::remove`, not under src/). -/
def removeFromRepos (st : State) (container : Container) : State :=
  { st with repositories := st.repositories.map (fun r =>
      (r.1, { r.2 with npks := r.2.npks.filter (fun n =>
        ¬(n.manifest.name = container.name ∧ n.manifest.version = container.version)) })) }

/-- `State::uninstall`: unmount when mounted (propagating its error), then
remove the identity from all repositories. -/
def State.uninstall (env : Env) (st : State) (container : Container) : RtResult Unit × State :=
  if (st.containers.lookup container).isSome then
    match State.umount env st container with
    | (.ok _, st') => (.ok (), removeFromRepos st' container)
    | (.err e, st') => (.err e, st')
    | (.panic m, st') => (.panic m, st')
  else
    (.ok (), removeFromRepos st container)

/-- `State::list_containers`: one `ContainerData` per package of every
repository, annotated with process info (pid, uptime, statm scaled by the
page size) and the mounted flag. -/
def listContainers (env : Env) (st : State) : List ContainerData :=
  (st.repositories.map (fun r =>
    r.2.npks.map (fun npk =>
      let container : Container := ⟨npk.manifest.name, npk.manifest.version⟩
      let process := ((st.containers.lookup container).bind (fun mc => mc.process)).map
        (fun f =>
          { pid := f.pid
            uptime := env.uptime container
            resources :=
              { memory := (env.statm f.pid).map (fun s =>
                  { size := s.size * env.pageSize
                    resident := s.resident * env.pageSize
                    shared := s.shared * env.pageSize
                    text := s.text * env.pageSize
                    data := s.data * env.pageSize }) } })
      { container := container
        repository := r.1
        manifest := npk.manifest
        process := process
        mounted := (st.containers.lookup container).isSome }))).flatten

/-- The `Request::Mount` arm of `State::console_request`: preparing any of
the mount futures can fail (`?`), which aborts the whole request without a
reply (the `.err` outcome); otherwise all mounts run from the same
snapshot, successful ones are inserted into the map, failures are only
logged ("Not yet implemented: error handling for bulk mounts"), and the
reply is `Response::Mount(vec![])`. -/
def consoleMount (env : Env) (st : State) (cs : List Container) :
    RtResult (Response × State × List Event) :=
  match cs.find? (fun c => (st.npk c).isNone) with
  | some c => .err (.invalidContainer c)
  | none =>
    let results := cs.map (fun c => mountOne env st c)
    let containers' := results.foldl
      (fun acc r =>
        match r with
        | .ok mc => acc.insert mc.container mc
        | .error _ => acc)
      st.containers
    .ok (.mount [], { st with containers := containers' }, [])

/-- The request dispatch of `State::console_request` for framed requests:
engine operation results are translated into a `Response` (`Ok(())` or
`Err(api error)`); `Request::Install` on this path is `unreachable!()`. A
`.err` outcome means `console_request` itself returned `Err` and no reply
was sent; a `.panic` outcome means the engine aborted. -/
def consoleRequest (env : Env) (st : State) (req : Request) :
    RtResult (Response × State × List Event) :=
  match req with
  | .containers => .ok (.containers (listContainers env st), st, [])
  | .install _ _ => .panic "unreachable"
  | .mount cs => consoleMount env st cs
  | .repositories => .ok (.repositories (st.repositories.map Prod.fst), st, [])
  | .shutdown => .ok (.ok, st, [.shutdownEvent])
  | .start c =>
    match State.start env st c with
    | (.ok _, st', evs) => .ok (.ok, st', evs)
    | (.err e, st', evs) => .ok (.err e.toApi, st', evs)
    | (.panic m, _, _) => .panic m
  | .stop c t =>
    match State.stop env st c t with
    | (.ok _, st', evs) => .ok (.ok, st', evs)
    | (.err e, st', evs) => .ok (.err e.toApi, st', evs)
    | (.panic m, _, _) => .panic m
  | .umount c =>
    match State.umount env st c with
    | (.ok _, st') => .ok (.ok, st', [])
    | (.err e, st') => .ok (.err e.toApi, st', [])
    | (.panic m, _) => .panic m
  | .uninstall c =>
    match State.uninstall env st c with
    | (.ok _, st') => .ok (.ok, st', [])
    | (.err e, st') => .ok (.err e.toApi, st', [])
    | (.panic m, _) => .panic m

/-- Linux signal number of SIGTERM. -/
def SIGTERM : Nat := 15

/-- Linux signal number of SIGKILL. -/
def SIGKILL : Nat := 9

/-- Linux errno of ESRCH (no such process). -/
def ESRCH : Nat := 3

/-- `island::SIGNAL_OFFSET`: offset for signal-as-exit-code encoding. -/
def SIGNAL_OFFSET : Int := 128

/-- nix `Signal::try_from`: the valid Linux signal numbers are 1..=31. -/
def signalTryFrom (i : Int) : Option Nat :=
  if 1 ≤ i ∧ i ≤ 31 then some i.toNat else none

/-- One report of the kernel wait primitive
(`nix::sys::wait::WaitStatus`) or its error. -/
inductive WaitReport where
  | exited (pid : Int) (code : Int)
  | signaled (pid : Int) (signal : Nat) (coreDump : Bool)
  | stopped
  | ptraceEvent
  | ptraceSyscall
  | continued
  | stillAlive
  | eintr
  | waitFailure (msg : String)
deriving DecidableEq

/-- One iteration of the wait loop in `island::wait`: a normal exit with
code at or above `SIGNAL_OFFSET` is decoded back to a signal via
`Signal::try_from(code - SIGNAL_OFFSET)` whose failure is `expect`ed
("Invalid signal offset"); a plain exit keeps its code; a signaled report
keeps its signal; stop/ptrace/continue/still-alive reports and EINTR loop
(`none`); any other wait error aborts the task. -/
def waitDecodeStep : WaitReport → Option (RtResult ExitStatus)
  | .exited _ code =>
    some (if SIGNAL_OFFSET ≤ code then
        match signalTryFrom (code - SIGNAL_OFFSET) with
        | some s => .ok (.signaled s)
        | none => .panic "Invalid signal offset"
      else .ok (.exit code))
  | .signaled _ s _ => some (.ok (.signaled s))
  | .waitFailure m => some (.panic ("Failed to waitpid: " ++ m))
  | _ => none

/-- The wait task of `island::wait` resolves with the first decisive
report of the wait loop. -/
def waitTask (reports : List WaitReport) : Option (RtResult ExitStatus) :=
  reports.findSome? waitDecodeStep

/-- `island::IslandProcess`: the launcher process handle. The two io
fields record whether stdout/stderr log forwarders are attached. -/
inductive IslandProcess where
  | created (pid : Nat) (io0 : Bool) (io1 : Bool)
  | started (pid : Nat) (io0 : Bool) (io1 : Bool)
  | stopped
deriving DecidableEq

/-- Environment of one `IslandProcess::stop` call: the outcomes of the two
kill syscalls (errno on failure), whether the wait-task future resolves
within the stop timeout, the wait task's result, and the outcomes of
stopping the two log forwarders. -/
structure StopEnv where
  sigterm : Except Nat Unit
  waitWithinTimeout : Bool
  sigkill : Except Nat Unit
  waitResult : Except Error ExitStatus
  ioStop0 : Except Error Unit
  ioStop1 : Except Error Unit

/-- Debug rendering of a nix errno as it appears in `Error::Os`
payloads. -/
def errnoName (e : Nat) : String :=
  if e = 3 then "ESRCH" else "errno " ++ toString e

/-- The tail of `IslandProcess::stop` once an await of the wait task has
been reached: the awaited result is propagated by `?`, then the log
forwarders are stopped (`?`), and the handle comes back `Stopped`. -/
def stopFinish (env : StopEnv) (io0 io1 : Bool) (kills : List (Int × Nat)) :
    List (Int × Nat) × RtResult (IslandProcess × ExitStatus) :=
  match env.waitResult with
  | .error e => (kills, .err e)
  | .ok status =>
    match (if io0 then env.ioStop0 else .ok ()) with
    | .error e => (kills, .err e)
    | .ok _ =>
      match (if io1 then env.ioStop1 else .ok ()) with
      | .error e => (kills, .err e)
      | .ok _ => (kills, .ok (.stopped, status))

/-- The body of `IslandProcess::stop` shared by the `Created` and
`Started` arms: SIGTERM the process group (the negated pid); if that
succeeds await the wait task with the timeout, on timeout SIGKILL the
group (a kill failure is returned as `Error::Os`) and await without a
timeout; if SIGTERM failed with ESRCH await the wait task and return its
result as-is; any other SIGTERM failure is returned as `Error::Os`. The
first component of the result is the list of (target, signal) kill calls
made. -/
def stopFrom (pid : Nat) (io0 io1 : Bool) (env : StopEnv) :
    List (Int × Nat) × RtResult (IslandProcess × ExitStatus) :=
  let processGroup : Int := -(pid : Int)
  match env.sigterm with
  | .ok _ =>
    if env.waitWithinTimeout then
      stopFinish env io0 io1 [(processGroup, SIGTERM)]
    else
      match env.sigkill with
      | .error e =>
        ([(processGroup, SIGTERM), (processGroup, SIGKILL)],
         .err (.osError "Failed to kill process" (errnoName e)))
      | .ok _ => stopFinish env io0 io1 [(processGroup, SIGTERM), (processGroup, SIGKILL)]
  | .error e =>
    if e = ESRCH then
      stopFinish env io0 io1 [(processGroup, SIGTERM)]
    else
      ([(processGroup, SIGTERM)],
       .err (.osError ("Failed to SIGTERM " ++ toString processGroup) (errnoName e)))

/-- `IslandProcess::stop`; stopping an already `Stopped` handle is
`unreachable!()`. -/
def IslandProcess.stop (p : IslandProcess) (_timeout : Nat) (env : StopEnv) :
    List (Int × Nat) × RtResult (IslandProcess × ExitStatus) :=
  match p with
  | .stopped => ([], .panic "unreachable")
  | .created pid io0 io1 => stopFrom pid io0 io1 env
  | .started pid io0 io1 => stopFrom pid io0 io1 env

/-- `api::client::Error`. -/
inductive ClientError where
  | ioError (msg : String)
  | timeout
  | stoppedError
  | protocol
  | pendingRequest
  | api (error : ApiError)
  | invalidConsoleAddress (url : String)
deriving DecidableEq

/-- `api::client::ClientRequest`: a framed request or an install with the
npk path and target repository. -/
inductive ClientRequest where
  | request (request : Request)
  | install (npk : String) (repository : String)
deriving DecidableEq

/-- One wakeup of the client's connection task: a frame (or read error, or
`none` for a closed connection) from the wire, or an item (or `none` for a
closed channel) from the request queue. -/
inductive LoopEvent where
  | fromConnection (frame : Option (Except String Message))
  | fromRequests (item : Option (ClientRequest × Nat))

/-- Environment of one client-loop step: the outcome of sending on the
connection, whether the notification receiver is still alive, the npk file
size (`none` models a failed `File::open`, which is `expect`ed), and the
outcome of pumping the npk bytes. -/
structure ClientEnv where
  sendResult : Message → Except String Unit
  notificationReceiverAlive : Bool
  fileSize : String → Option Nat
  copyResult : Except String Unit

/-- Result of one step of the client loop in `Client::new`: the stored
response slot afterwards, the messages sent on the connection, the replies
delivered to request oneshots, the notifications forwarded, whether the
loop broke (with the loop's result) and whether it panicked. -/
structure LoopStepOut where
  pending : Option Nat
  sent : List Message
  replies : List (Nat × Except ClientError Response)
  notifications : List (Except ClientError Notification)
  broke : Option (Except ClientError Unit)
  panicked : Option String

/-- A step outcome that only breaks the loop. -/
def loopBreak (pending : Option Nat) (r : Except ClientError Unit) : LoopStepOut :=
  { pending := pending, sent := [], replies := [], notifications := [], broke := some r,
    panicked := none }

/-- One iteration of the `select!` loop spawned by `Client::new`: inbound
`Connect`/`Request` frames are protocol errors; a `Response` resolves the
stored oneshot (none stored is a protocol error); notifications are
forwarded while the receiver lives; a submitted request is rejected with
`PendingRequest` while a response is outstanding, otherwise it is sent and
its oneshot stored; an install opens the file (`expect`), sends the install
request header and pumps the bytes. -/
def clientStep (env : ClientEnv) (pending : Option Nat) (ev : LoopEvent) : LoopStepOut :=
  match ev with
  | .fromConnection (some (.ok msg)) =>
    match msg.payload with
    | .connect _ => loopBreak pending (.error .protocol)
    | .request _ => loopBreak pending (.error .protocol)
    | .response r =>
      match pending with
      | some id =>
        { pending := none, sent := [], replies := [(id, .ok r)], notifications := [],
          broke := none, panicked := none }
      | none => loopBreak pending (.error .protocol)
    | .notification n =>
      if env.notificationReceiverAlive then
        { pending := pending, sent := [], replies := [], notifications := [.ok n],
          broke := none, panicked := none }
      else
        loopBreak pending (.ok ())
  | .fromConnection (some (.error e)) => loopBreak pending (.error (.ioError e))
  | .fromConnection none => loopBreak pending (.ok ())
  | .fromRequests none => loopBreak pending (.ok ())
  | .fromRequests (some (req, id)) =>
    if pending.isSome then
      { pending := pending, sent := [], replies := [(id, .error .pendingRequest)],
        notifications := [], broke := none, panicked := none }
    else
      match req with
      | .request r =>
        match env.sendResult ⟨.request r⟩ with
        | .ok _ =>
          { pending := some id, sent := [⟨.request r⟩], replies := [], notifications := [],
            broke := none, panicked := none }
        | .error e =>
          { pending := none, sent := [], replies := [(id, .error (.ioError e))],
            notifications := [], broke := none, panicked := none }
      | .install npk repository =>
        match env.fileSize npk with
        | none =>
          { pending := pending, sent := [], replies := [], notifications := [],
            broke := none, panicked := some "Failed to open" }
        | some size =>
          let m : Message := ⟨.request (.install repository size)⟩
          let afterSend : Option Nat × List Message × List (Nat × Except ClientError Response) :=
            match env.sendResult m with
            | .ok _ => (some id, [m], [])
            | .error e => (none, [], [(id, .error (.ioError e))])
          match env.copyResult with
          | .error e =>
            { pending := afterSend.1, sent := afterSend.2.1, replies := afterSend.2.2,
              notifications := [], broke := some (.error (.ioError e)), panicked := none }
          | .ok _ =>
            { pending := afterSend.1, sent := afterSend.2.1, replies := afterSend.2.2,
              notifications := [], broke := none, panicked := none }

/-! ### Wire serialization

`codec.rs` frames `api::model::Message` values as newline-delimited JSON:
`encode` is `serde_json::to_string` plus the `LinesCodec` newline, `decode`
is a `LinesCodec` line split plus `serde_json::from_str`. serde and the
`api::model` types are not under src/, so the JSON serialization of the
modelled message type is itself modelled: an executable encoder to
characters and a recursive-descent parser standing in for
`serde_json::to_string` / `from_str` on these types (externally tagged
enums, struct fields in declaration order, no string escapes — hence the
plain-string well-formedness conditions). -/

/-- The opening brace character. -/
def LB : Char := '\x7b'

/-- The closing brace character. -/
def RB : Char := '\x7d'

/-- Characters of a string literal. -/
def lit (s : String) : List Char := s.data

/-- A consuming parser over characters. -/
abbrev P (α : Type) := List Char → Option (α × List Char)

/-- Sequencing of parsers. -/
def pseq {α β : Type} (p : P α) (f : α → P β) : P β := fun s =>
  match p s with
  | some (a, r) => f a r
  | none => none

/-- Parser returning a value without consuming input. -/
def pDone {α : Type} (a : α) : P α := fun s => some (a, s)

/-- Parser alternative: the second parser runs only when the first
fails. -/
def pAlt {α : Type} (p q : P α) : P α := fun s =>
  match p s with
  | some x => some x
  | none => q s

/-- Expect a literal character sequence. -/
def pLit : List Char → P Unit
  | [] => fun s => some ((), s)
  | c :: l => fun s =>
    match s with
    | c' :: r => if c' = c then pLit l r else none
    | [] => none

/-- A value wrapped between a literal prefix and a literal suffix. -/
def pWrap {α : Type} (pre : List Char) (p : P α) (suf : List Char) : P α :=
  pseq (pLit pre) (fun _ => pseq p (fun a => pseq (pLit suf) (fun _ => pDone a)))

/-- Map over a parser's result. -/
def pMap {α β : Type} (f : α → β) (p : P α) : P β := fun s =>
  match p s with
  | some (a, r) => some (f a, r)
  | none => none

/-- Decimal digit test. -/
def isDig (c : Char) : Bool := '0' ≤ c && c ≤ '9'

/-- The character of a decimal digit. -/
def digitChar : Nat → Char
  | 0 => '0'
  | 1 => '1'
  | 2 => '2'
  | 3 => '3'
  | 4 => '4'
  | 5 => '5'
  | 6 => '6'
  | 7 => '7'
  | 8 => '8'
  | _ => '9'

/-- The value of a decimal digit character. -/
def digitVal (c : Char) : Nat := c.toNat - 48

/-- Decimal digits of `n` prepended to `acc` (empty for `n = 0`); the
fuel bounds the recursion structurally, `n` itself is always enough. -/
def natCharsAux : Nat → Nat → List Char → List Char
  | 0, _, acc => acc
  | fuel + 1, n, acc =>
    if n = 0 then acc else natCharsAux fuel (n / 10) (digitChar (n % 10) :: acc)

/-- Decimal rendering of a natural number. -/
def natChars (n : Nat) : List Char :=
  if n = 0 then ['0'] else natCharsAux n n []

/-- Parse a decimal natural number (at least one digit). -/
def pNat : P Nat := fun s =>
  let ds := s.takeWhile isDig
  if ds.isEmpty then none
  else some (ds.foldl (fun a c => a * 10 + digitVal c) 0, s.dropWhile isDig)

/-- Decimal rendering of an integer. -/
def intChars (i : Int) : List Char :=
  if i < 0 then '-' :: natChars i.natAbs else natChars i.natAbs

/-- Parse an optionally negated decimal integer. -/
def pInt : P Int := fun s =>
  match s with
  | c :: r =>
    if c = '-' then (pNat r).map (fun x => (-(x.1 : Int), x.2))
    else (pNat (c :: r)).map (fun x => ((x.1 : Int), x.2))
  | [] => none

/-- A character that may sit unescaped inside a JSON string on one line. -/
def plainChar (c : Char) : Bool :=
  c ≠ '"' && c ≠ '\\' && c ≠ '\n' && c ≠ '\r'

/-- A string all of whose characters are plain. -/
def plainString (s : String) : Bool := s.data.all plainChar

/-- A quoted JSON string (no escapes). -/
def strChars (s : String) : List Char := '"' :: s.data ++ ['"']

/-- Take characters up to the closing quote. -/
def takeUntilQuote : List Char → Option (List Char × List Char)
  | [] => none
  | c :: r =>
    if c = '"' then some ([], r)
    else (takeUntilQuote r).map (fun x => (c :: x.1, x.2))

/-- Parse a quoted JSON string (no escapes). -/
def pStr : P String := fun s =>
  match s with
  | c :: r =>
    if c = '"' then (takeUntilQuote r).map (fun x => (String.mk x.1, x.2)) else none
  | [] => none

/-- JSON booleans. -/
def boolChars (b : Bool) : List Char :=
  if b then ['t', 'r', 'u', 'e'] else ['f', 'a', 'l', 's', 'e']

/-- Parse a JSON boolean. -/
def pBool : P Bool := fun s =>
  match pLit ['t', 'r', 'u', 'e'] s with
  | some (_, r) => some (true, r)
  | none =>
    match pLit ['f', 'a', 'l', 's', 'e'] s with
    | some (_, r) => some (false, r)
    | none => none

/-- serde `Option`: `None` is `null`, `Some x` is the encoding of `x`. -/
def optChars {α : Type} (enc : α → List Char) : Option α → List Char
  | none => ['n', 'u', 'l', 'l']
  | some a => enc a

/-- Parse an optional value: `null` or the value itself. -/
def pOpt {α : Type} (p : P α) : P (Option α) := fun s =>
  match pLit ['n', 'u', 'l', 'l'] s with
  | some (_, r) => some (none, r)
  | none => (p s).map (fun x => (some x.1, x.2))

/-- Comma-separated encodings. -/
def sepBy {α : Type} (enc : α → List Char) : List α → List Char
  | [] => []
  | [a] => enc a
  | a :: rest => enc a ++ ',' :: sepBy enc rest

/-- A JSON collection: open delimiter, comma-separated elements, close
delimiter (arrays, and objects whose entries are encoded pairs). -/
def collChars {α : Type} (opn cls : Char) (enc : α → List Char) (xs : List α) : List Char :=
  opn :: sepBy enc xs ++ [cls]

/-- Fueled tail of the collection parser: either the close delimiter or a
comma followed by one more element. -/
def pCollTail {α : Type} (cls : Char) (p : P α) : Nat → List α → P (List α)
  | 0, _ => fun _ => none
  | fuel + 1, acc => fun s =>
    match s with
    | c :: r =>
      if c = cls then some (acc.reverse, r)
      else if c = ',' then
        match p r with
        | some (a, r') => pCollTail cls p fuel (a :: acc) r'
        | none => none
      else none
    | [] => none

/-- Parse a JSON collection with the given delimiters. -/
def pColl {α : Type} (opn cls : Char) (p : P α) : P (List α) := fun s =>
  match s with
  | c :: r =>
    if c = opn then
      if r.head? = some cls then some ([], r.tail)
      else
        match p r with
        | some (a, r') => pCollTail cls p (r'.length + 1) [a] r'
        | none => none
    else none
  | [] => none

/-- JSON of a `Version`: the string `"major.minor.patch"`. -/
def encVersion (v : Version) : List Char :=
  ['"'] ++ natChars v.major ++ ['.'] ++ natChars v.minor ++ ['.'] ++ natChars v.patch ++ ['"']

/-- Parse a version string. -/
def pVersion : P Version :=
  pseq (pLit ['"']) fun _ =>
  pseq pNat fun major =>
  pseq (pLit ['.']) fun _ =>
  pseq pNat fun minor =>
  pseq (pLit ['.']) fun _ =>
  pseq pNat fun patch =>
  pseq (pLit ['"']) fun _ =>
  pDone ⟨major, minor, patch⟩

/-- JSON of a `Container`. -/
def encContainer (c : Container) : List Char :=
  lit "\x7b\"name\":" ++ strChars c.name ++ lit ",\"version\":" ++ encVersion c.version ++ [RB]

/-- Parse a `Container`. -/
def pContainer : P Container :=
  pseq (pLit (lit "\x7b\"name\":")) fun _ =>
  pseq pStr fun name =>
  pseq (pLit (lit ",\"version\":")) fun _ =>
  pseq pVersion fun version =>
  pseq (pLit [RB]) fun _ =>
  pDone ⟨name, version⟩

/-- JSON of a `Mount` variant (externally tagged). -/
def encMount : Mount → List Char
  | .bind host => lit "\x7b\"Bind\":\x7b\"host\":" ++ strChars host ++ lit "\x7d\x7d"
  | .tmpfs size => lit "\x7b\"Tmpfs\":\x7b\"size\":" ++ natChars size ++ lit "\x7d\x7d"
  | .persist => lit "\"Persist\""
  | .resource name version dir =>
    lit "\x7b\"Resource\":\x7b\"name\":" ++ strChars name ++ lit ",\"version\":"
      ++ encVersion version ++ lit ",\"dir\":" ++ strChars dir ++ lit "\x7d\x7d"

/-- Parse a `Mount` variant. -/
def pMount : P Mount :=
  pAlt (pWrap (lit "\x7b\"Bind\":\x7b\"host\":") (pMap Mount.bind pStr) (lit "\x7d\x7d"))
  (pAlt (pWrap (lit "\x7b\"Tmpfs\":\x7b\"size\":") (pMap Mount.tmpfs pNat) (lit "\x7d\x7d"))
  (pAlt (pWrap (lit "\"Persist\"") (pDone Mount.persist) [])
    (pWrap (lit "\x7b\"Resource\":\x7b\"name\":")
      (pseq pStr fun name =>
       pseq (pLit (lit ",\"version\":")) fun _ =>
       pseq pVersion fun version =>
       pseq (pLit (lit ",\"dir\":")) fun _ =>
       pseq pStr fun dir =>
       pDone (Mount.resource name version dir))
      (lit "\x7d\x7d"))))

/-- JSON of an env-map entry. -/
def encEnvEntry (kv : String × String) : List Char :=
  strChars kv.1 ++ [':'] ++ strChars kv.2

/-- Parse an env-map entry. -/
def pEnvEntry : P (String × String) :=
  pseq pStr fun k => pseq (pLit [':']) fun _ => pseq pStr fun v => pDone (k, v)

/-- JSON of a mount-table entry. -/
def encMountEntry (kv : String × Mount) : List Char :=
  strChars kv.1 ++ [':'] ++ encMount kv.2

/-- Parse a mount-table entry. -/
def pMountEntry : P (String × Mount) :=
  pseq pStr fun k => pseq (pLit [':']) fun _ => pseq pMount fun m => pDone (k, m)

/-- JSON of `CGroupLimits`. -/
def encCGroupLimits (g : CGroupLimits) : List Char :=
  lit "\x7b\"memory\":" ++ optChars natChars g.memory ++ lit ",\"cpu_shares\":"
    ++ optChars natChars g.cpuShares ++ [RB]

/-- Parse `CGroupLimits`. -/
def pCGroupLimits : P CGroupLimits :=
  pseq (pLit (lit "\x7b\"memory\":")) fun _ =>
  pseq (pOpt pNat) fun memory =>
  pseq (pLit (lit ",\"cpu_shares\":")) fun _ =>
  pseq (pOpt pNat) fun cpuShares =>
  pseq (pLit [RB]) fun _ =>
  pDone ⟨memory, cpuShares⟩

/-- JSON of a `Manifest` (fields in declaration order). -/
def encManifest (m : Manifest) : List Char :=
  lit "\x7b\"name\":" ++ strChars m.name
    ++ lit ",\"version\":" ++ encVersion m.version
    ++ lit ",\"init\":" ++ optChars strChars m.init
    ++ lit ",\"args\":" ++ optChars (collChars '[' ']' strChars) m.args
    ++ lit ",\"env\":" ++ optChars (collChars LB RB encEnvEntry) m.env
    ++ lit ",\"uid\":" ++ optChars natChars m.uid
    ++ lit ",\"gid\":" ++ optChars natChars m.gid
    ++ lit ",\"suppl_groups\":" ++ optChars (collChars '[' ']' strChars) m.supplGroups
    ++ lit ",\"mounts\":" ++ collChars LB RB encMountEntry m.mounts
    ++ lit ",\"seccomp\":" ++ optChars (collChars '[' ']' strChars) m.seccomp
    ++ lit ",\"cgroups\":" ++ optChars encCGroupLimits m.cgroups
    ++ [RB]

/-- Parse a `Manifest`. -/
def pManifest : P Manifest :=
  pseq (pLit (lit "\x7b\"name\":")) fun _ =>
  pseq pStr fun name =>
  pseq (pLit (lit ",\"version\":")) fun _ =>
  pseq pVersion fun version =>
  pseq (pLit (lit ",\"init\":")) fun _ =>
  pseq (pOpt pStr) fun init =>
  pseq (pLit (lit ",\"args\":")) fun _ =>
  pseq (pOpt (pColl '[' ']' pStr)) fun args =>
  pseq (pLit (lit ",\"env\":")) fun _ =>
  pseq (pOpt (pColl LB RB pEnvEntry)) fun env =>
  pseq (pLit (lit ",\"uid\":")) fun _ =>
  pseq (pOpt pNat) fun uid =>
  pseq (pLit (lit ",\"gid\":")) fun _ =>
  pseq (pOpt pNat) fun gid =>
  pseq (pLit (lit ",\"suppl_groups\":")) fun _ =>
  pseq (pOpt (pColl '[' ']' pStr)) fun supplGroups =>
  pseq (pLit (lit ",\"mounts\":")) fun _ =>
  pseq (pColl LB RB pMountEntry) fun mounts =>
  pseq (pLit (lit ",\"seccomp\":")) fun _ =>
  pseq (pOpt (pColl '[' ']' pStr)) fun seccomp =>
  pseq (pLit (lit ",\"cgroups\":")) fun _ =>
  pseq (pOpt pCGroupLimits) fun cgroups =>
  pseq (pLit [RB]) fun _ =>
  pDone ⟨name, version, init, args, env, uid, gid, supplGroups, mounts, seccomp, cgroups⟩

/-- JSON of an `ExitStatus`. -/
def encExitStatus : ExitStatus → List Char
  | .exit code => lit "\x7b\"Exit\":" ++ intChars code ++ lit "\x7d"
  | .signaled signal => lit "\x7b\"Signaled\":" ++ natChars signal ++ lit "\x7d"

/-- Parse an `ExitStatus`. -/
def pExitStatus : P ExitStatus :=
  pAlt (pWrap (lit "\x7b\"Exit\":") (pMap ExitStatus.exit pInt) (lit "\x7d"))
    (pWrap (lit "\x7b\"Signaled\":") (pMap ExitStatus.signaled pNat) (lit "\x7d"))

/-- JSON of `Memory`. -/
def encMemory (m : Memory) : List Char :=
  lit "\x7b\"size\":" ++ natChars m.size ++ lit ",\"resident\":" ++ natChars m.resident
    ++ lit ",\"shared\":" ++ natChars m.shared ++ lit ",\"text\":" ++ natChars m.text
    ++ lit ",\"data\":" ++ natChars m.data ++ [RB]

/-- Parse `Memory`. -/
def pMemory : P Memory :=
  pseq (pLit (lit "\x7b\"size\":")) fun _ =>
  pseq pNat fun size =>
  pseq (pLit (lit ",\"resident\":")) fun _ =>
  pseq pNat fun resident =>
  pseq (pLit (lit ",\"shared\":")) fun _ =>
  pseq pNat fun shared =>
  pseq (pLit (lit ",\"text\":")) fun _ =>
  pseq pNat fun text =>
  pseq (pLit (lit ",\"data\":")) fun _ =>
  pseq pNat fun data =>
  pseq (pLit [RB]) fun _ =>
  pDone ⟨size, resident, shared, text, data⟩

/-- JSON of `Resources`. -/
def encResources (r : Resources) : List Char :=
  lit "\x7b\"memory\":" ++ optChars encMemory r.memory ++ [RB]

/-- Parse `Resources`. -/
def pResources : P Resources :=
  pseq (pLit (lit "\x7b\"memory\":")) fun _ =>
  pseq (pOpt pMemory) fun memory =>
  pseq (pLit [RB]) fun _ =>
  pDone ⟨memory⟩

/-- JSON of `ProcessInfo`. -/
def encProcessInfo (p : ProcessInfo) : List Char :=
  lit "\x7b\"pid\":" ++ natChars p.pid ++ lit ",\"uptime\":" ++ natChars p.uptime
    ++ lit ",\"resources\":" ++ encResources p.resources ++ [RB]

/-- Parse `ProcessInfo`. -/
def pProcessInfo : P ProcessInfo :=
  pseq (pLit (lit "\x7b\"pid\":")) fun _ =>
  pseq pNat fun pid =>
  pseq (pLit (lit ",\"uptime\":")) fun _ =>
  pseq pNat fun uptime =>
  pseq (pLit (lit ",\"resources\":")) fun _ =>
  pseq pResources fun resources =>
  pseq (pLit [RB]) fun _ =>
  pDone ⟨pid, uptime, resources⟩

/-- JSON of `ContainerData`. -/
def encContainerData (d : ContainerData) : List Char :=
  lit "\x7b\"container\":" ++ encContainer d.container
    ++ lit ",\"repository\":" ++ strChars d.repository
    ++ lit ",\"manifest\":" ++ encManifest d.manifest
    ++ lit ",\"process\":" ++ optChars encProcessInfo d.process
    ++ lit ",\"mounted\":" ++ boolChars d.mounted ++ [RB]

/-- Parse `ContainerData`. -/
def pContainerData : P ContainerData :=
  pseq (pLit (lit "\x7b\"container\":")) fun _ =>
  pseq pContainer fun container =>
  pseq (pLit (lit ",\"repository\":")) fun _ =>
  pseq pStr fun repository =>
  pseq (pLit (lit ",\"manifest\":")) fun _ =>
  pseq pManifest fun manifest =>
  pseq (pLit (lit ",\"process\":")) fun _ =>
  pseq (pOpt pProcessInfo) fun process =>
  pseq (pLit (lit ",\"mounted\":")) fun _ =>
  pseq pBool fun mounted =>
  pseq (pLit [RB]) fun _ =>
  pDone ⟨container, repository, manifest, process, mounted⟩

/-- JSON of an `ApiError` (externally tagged; tuple payloads as arrays). -/
def encApiError : ApiError → List Char
  | .configuration cause => lit "\x7b\"Configuration\":" ++ strChars cause ++ lit "\x7d"
  | .invalidContainer c => lit "\x7b\"InvalidContainer\":" ++ encContainer c ++ lit "\x7d"
  | .umountBusy c => lit "\x7b\"UmountBusy\":" ++ encContainer c ++ lit "\x7d"
  | .startContainerStarted c => lit "\x7b\"StartContainerStarted\":" ++ encContainer c ++ lit "\x7d"
  | .startContainerResource c =>
    lit "\x7b\"StartContainerResource\":" ++ encContainer c ++ lit "\x7d"
  | .startContainerMissingResource c r =>
    lit "\x7b\"StartContainerMissingResource\":[" ++ encContainer c ++ [','] ++ encContainer r
      ++ lit "]\x7d"
  | .startContainerFailed c reason =>
    lit "\x7b\"StartContainerFailed\":[" ++ encContainer c ++ [','] ++ strChars reason ++ lit "]\x7d"
  | .stopContainerNotStarted c =>
    lit "\x7b\"StopContainerNotStarted\":" ++ encContainer c ++ lit "\x7d"
  | .invalidRepository r => lit "\x7b\"InvalidRepository\":" ++ strChars r ++ lit "\x7d"
  | .installDuplicate c => lit "\x7b\"InstallDuplicate\":" ++ encContainer c ++ lit "\x7d"
  | .npkError cause error =>
    lit "\x7b\"Npk\":[" ++ strChars cause ++ [','] ++ strChars error ++ lit "]\x7d"
  | .consoleError e => lit "\x7b\"Console\":" ++ strChars e ++ lit "\x7d"
  | .cgroupsError e => lit "\x7b\"Cgroups\":" ++ strChars e ++ lit "\x7d"
  | .mountError e => lit "\x7b\"Mount\":" ++ strChars e ++ lit "\x7d"
  | .keyError e => lit "\x7b\"Key\":" ++ strChars e ++ lit "\x7d"
  | .ioError e => lit "\x7b\"Io\":" ++ strChars e ++ lit "\x7d"
  | .osError e => lit "\x7b\"Os\":" ++ strChars e ++ lit "\x7d"

/-- Parse an `ApiError`. -/
def pApiError : P ApiError :=
  pAlt (pWrap (lit "\x7b\"Configuration\":") (pMap ApiError.configuration pStr) (lit "\x7d"))
  (pAlt (pWrap (lit "\x7b\"InvalidContainer\":") (pMap ApiError.invalidContainer pContainer)
    (lit "\x7d"))
  (pAlt (pWrap (lit "\x7b\"UmountBusy\":") (pMap ApiError.umountBusy pContainer) (lit "\x7d"))
  (pAlt (pWrap (lit "\x7b\"StartContainerStarted\":")
    (pMap ApiError.startContainerStarted pContainer) (lit "\x7d"))
  (pAlt (pWrap (lit "\x7b\"StartContainerResource\":")
    (pMap ApiError.startContainerResource pContainer) (lit "\x7d"))
  (pAlt (pWrap (lit "\x7b\"StartContainerMissingResource\":[")
    (pseq pContainer fun c => pseq (pLit [',']) fun _ => pseq pContainer fun r =>
      pDone (ApiError.startContainerMissingResource c r)) (lit "]\x7d"))
  (pAlt (pWrap (lit "\x7b\"StartContainerFailed\":[")
    (pseq pContainer fun c => pseq (pLit [',']) fun _ => pseq pStr fun reason =>
      pDone (ApiError.startContainerFailed c reason)) (lit "]\x7d"))
  (pAlt (pWrap (lit "\x7b\"StopContainerNotStarted\":")
    (pMap ApiError.stopContainerNotStarted pContainer) (lit "\x7d"))
  (pAlt (pWrap (lit "\x7b\"InvalidRepository\":") (pMap ApiError.invalidRepository pStr)
    (lit "\x7d"))
  (pAlt (pWrap (lit "\x7b\"InstallDuplicate\":") (pMap ApiError.installDuplicate pContainer)
    (lit "\x7d"))
  (pAlt (pWrap (lit "\x7b\"Npk\":[")
    (pseq pStr fun cause => pseq (pLit [',']) fun _ => pseq pStr fun error =>
      pDone (ApiError.npkError cause error)) (lit "]\x7d"))
  (pAlt (pWrap (lit "\x7b\"Console\":") (pMap ApiError.consoleError pStr) (lit "\x7d"))
  (pAlt (pWrap (lit "\x7b\"Cgroups\":") (pMap ApiError.cgroupsError pStr) (lit "\x7d"))
  (pAlt (pWrap (lit "\x7b\"Mount\":") (pMap ApiError.mountError pStr) (lit "\x7d"))
  (pAlt (pWrap (lit "\x7b\"Key\":") (pMap ApiError.keyError pStr) (lit "\x7d"))
  (pAlt (pWrap (lit "\x7b\"Io\":") (pMap ApiError.ioError pStr) (lit "\x7d"))
    (pWrap (lit "\x7b\"Os\":") (pMap ApiError.osError pStr) (lit "\x7d")))))))))))))))))

/-- JSON of a `MountResult` (serde `Result`). -/
def encMountResult : MountResult → List Char
  | .ok => lit "\x7b\"Ok\":null\x7d"
  | .err e => lit "\x7b\"Err\":" ++ encApiError e ++ lit "\x7d"

/-- Parse a `MountResult`. -/
def pMountResult : P MountResult :=
  pAlt (pWrap (lit "\x7b\"Ok\":null\x7d") (pDone MountResult.ok) [])
    (pWrap (lit "\x7b\"Err\":") (pMap MountResult.err pApiError) (lit "\x7d"))

/-- JSON of one bulk-mount result pair (serde tuple). -/
def encCMPair (x : Container × MountResult) : List Char :=
  ['['] ++ encContainer x.1 ++ [','] ++ encMountResult x.2 ++ [']']

/-- Parse one bulk-mount result pair. -/
def pCMPair : P (Container × MountResult) :=
  pseq (pLit ['[']) fun _ =>
  pseq pContainer fun c =>
  pseq (pLit [',']) fun _ =>
  pseq pMountResult fun m =>
  pseq (pLit [']']) fun _ =>
  pDone (c, m)

/-- JSON of a `Connect` payload. -/
def encConnect : Connect → List Char
  | .connect version sub =>
    lit "\x7b\"Connect\":\x7b\"version\":" ++ encVersion version
      ++ lit ",\"subscribe_notifications\":" ++ boolChars sub ++ lit "\x7d\x7d"
  | .connectAck => lit "\"ConnectAck\""

/-- Parse a `Connect` payload. -/
def pConnect : P Connect :=
  pAlt (pWrap (lit "\x7b\"Connect\":\x7b\"version\":")
    (pseq pVersion fun version =>
     pseq (pLit (lit ",\"subscribe_notifications\":")) fun _ =>
     pseq pBool fun sub =>
     pDone (Connect.connect version sub)) (lit "\x7d\x7d"))
    (pWrap (lit "\"ConnectAck\"") (pDone Connect.connectAck) [])

/-- JSON of a `Request`. -/
def encRequest : Request → List Char
  | .containers => lit "\"Containers\""
  | .repositories => lit "\"Repositories\""
  | .start c => lit "\x7b\"Start\":" ++ encContainer c ++ lit "\x7d"
  | .stop c timeout =>
    lit "\x7b\"Stop\":[" ++ encContainer c ++ [','] ++ natChars timeout ++ lit "]\x7d"
  | .mount cs => lit "\x7b\"Mount\":" ++ collChars '[' ']' encContainer cs ++ lit "\x7d"
  | .umount c => lit "\x7b\"Umount\":" ++ encContainer c ++ lit "\x7d"
  | .install repository size =>
    lit "\x7b\"Install\":[" ++ strChars repository ++ [','] ++ natChars size ++ lit "]\x7d"
  | .uninstall c => lit "\x7b\"Uninstall\":" ++ encContainer c ++ lit "\x7d"
  | .shutdown => lit "\"Shutdown\""

/-- Parse a `Request`. -/
def pRequest : P Request :=
  pAlt (pWrap (lit "\"Containers\"") (pDone Request.containers) [])
  (pAlt (pWrap (lit "\"Repositories\"") (pDone Request.repositories) [])
  (pAlt (pWrap (lit "\x7b\"Start\":") (pMap Request.start pContainer) (lit "\x7d"))
  (pAlt (pWrap (lit "\x7b\"Stop\":[")
    (pseq pContainer fun c => pseq (pLit [',']) fun _ => pseq pNat fun timeout =>
      pDone (Request.stop c timeout)) (lit "]\x7d"))
  (pAlt (pWrap (lit "\x7b\"Mount\":") (pMap Request.mount (pColl '[' ']' pContainer))
    (lit "\x7d"))
  (pAlt (pWrap (lit "\x7b\"Umount\":") (pMap Request.umount pContainer) (lit "\x7d"))
  (pAlt (pWrap (lit "\x7b\"Install\":[")
    (pseq pStr fun repository => pseq (pLit [',']) fun _ => pseq pNat fun size =>
      pDone (Request.install repository size)) (lit "]\x7d"))
  (pAlt (pWrap (lit "\x7b\"Uninstall\":") (pMap Request.uninstall pContainer) (lit "\x7d"))
    (pWrap (lit "\"Shutdown\"") (pDone Request.shutdown) []))))))))

/-- JSON of a `Response`. -/
def encResponse : Response → List Char
  | .containers cs => lit "\x7b\"Containers\":" ++ collChars '[' ']' encContainerData cs
      ++ lit "\x7d"
  | .repositories rs => lit "\x7b\"Repositories\":" ++ collChars '[' ']' strChars rs
      ++ lit "\x7d"
  | .mount ms => lit "\x7b\"Mount\":" ++ collChars '[' ']' encCMPair ms ++ lit "\x7d"
  | .ok => lit "\x7b\"Ok\":null\x7d"
  | .err e => lit "\x7b\"Err\":" ++ encApiError e ++ lit "\x7d"

/-- Parse a `Response`. -/
def pResponse : P Response :=
  pAlt (pWrap (lit "\x7b\"Containers\":")
    (pMap Response.containers (pColl '[' ']' pContainerData)) (lit "\x7d"))
  (pAlt (pWrap (lit "\x7b\"Repositories\":")
    (pMap Response.repositories (pColl '[' ']' pStr)) (lit "\x7d"))
  (pAlt (pWrap (lit "\x7b\"Mount\":") (pMap Response.mount (pColl '[' ']' pCMPair))
    (lit "\x7d"))
  (pAlt (pWrap (lit "\x7b\"Ok\":null\x7d") (pDone Response.ok) [])
    (pWrap (lit "\x7b\"Err\":") (pMap Response.err pApiError) (lit "\x7d")))))

/-- JSON of a `Notification`. -/
def encNotification : Notification → List Char
  | .started c => lit "\x7b\"Started\":" ++ encContainer c ++ lit "\x7d"
  | .stopped c => lit "\x7b\"Stopped\":" ++ encContainer c ++ lit "\x7d"
  | .exit c status =>
    lit "\x7b\"Exit\":\x7b\"container\":" ++ encContainer c ++ lit ",\"status\":"
      ++ encExitStatus status ++ lit "\x7d\x7d"
  | .outOfMemory c => lit "\x7b\"OutOfMemory\":" ++ encContainer c ++ lit "\x7d"
  | .install name version =>
    lit "\x7b\"Install\":[" ++ strChars name ++ [','] ++ encVersion version ++ lit "]\x7d"
  | .uninstalled name version =>
    lit "\x7b\"Uninstalled\":[" ++ strChars name ++ [','] ++ encVersion version ++ lit "]\x7d"
  | .shutdown => lit "\"Shutdown\""

/-- Parse a `Notification`. -/
def pNotification : P Notification :=
  pAlt (pWrap (lit "\x7b\"Started\":") (pMap Notification.started pContainer) (lit "\x7d"))
  (pAlt (pWrap (lit "\x7b\"Stopped\":") (pMap Notification.stopped pContainer) (lit "\x7d"))
  (pAlt (pWrap (lit "\x7b\"Exit\":\x7b\"container\":")
    (pseq pContainer fun c =>
     pseq (pLit (lit ",\"status\":")) fun _ =>
     pseq pExitStatus fun status =>
     pDone (Notification.exit c status)) (lit "\x7d\x7d"))
  (pAlt (pWrap (lit "\x7b\"OutOfMemory\":") (pMap Notification.outOfMemory pContainer)
    (lit "\x7d"))
  (pAlt (pWrap (lit "\x7b\"Install\":[")
    (pseq pStr fun name => pseq (pLit [',']) fun _ => pseq pVersion fun version =>
      pDone (Notification.install name version)) (lit "]\x7d"))
  (pAlt (pWrap (lit "\x7b\"Uninstalled\":[")
    (pseq pStr fun name => pseq (pLit [',']) fun _ => pseq pVersion fun version =>
      pDone (Notification.uninstalled name version)) (lit "]\x7d"))
    (pWrap (lit "\"Shutdown\"") (pDone Notification.shutdown) []))))))

/-- JSON of a `Payload`. -/
def encPayload : Payload → List Char
  | .connect c => lit "\x7b\"Connect\":" ++ encConnect c ++ lit "\x7d"
  | .request r => lit "\x7b\"Request\":" ++ encRequest r ++ lit "\x7d"
  | .response r => lit "\x7b\"Response\":" ++ encResponse r ++ lit "\x7d"
  | .notification n => lit "\x7b\"Notification\":" ++ encNotification n ++ lit "\x7d"

/-- Parse a `Payload`. -/
def pPayload : P Payload :=
  pAlt (pWrap (lit "\x7b\"Connect\":") (pMap Payload.connect pConnect) (lit "\x7d"))
  (pAlt (pWrap (lit "\x7b\"Request\":") (pMap Payload.request pRequest) (lit "\x7d"))
  (pAlt (pWrap (lit "\x7b\"Response\":") (pMap Payload.response pResponse) (lit "\x7d"))
    (pWrap (lit "\x7b\"Notification\":") (pMap Payload.notification pNotification)
      (lit "\x7d"))))

/-- JSON of a `Message`: the single `payload` field. -/
def encMessage (m : Message) : List Char :=
  lit "\x7b\"payload\":" ++ encPayload m.payload ++ [RB]

/-- Parse a `Message`. -/
def pMessage : P Message :=
  pseq (pLit (lit "\x7b\"payload\":")) fun _ =>
  pseq pPayload fun payload =>
  pseq (pLit [RB]) fun _ =>
  pDone ⟨payload⟩

/-- `Codec::encode` of `codec.rs`: serialize the message
(`serde_json::to_string`) and let `LinesCodec::encode` append the line and
a `\n` to the destination buffer. -/
def codecEncode (m : Message) (dst : List Char) : List Char :=
  dst ++ encMessage m ++ ['\n']

/-- `LinesCodec::decode`: the characters before the first newline, and the
buffer remainder after it. -/
def findLine : List Char → Option (List Char × List Char)
  | [] => none
  | c :: r =>
    if c = '\n' then some ([], r)
    else (findLine r).map (fun x => (c :: x.1, x.2))

/-- `LinesCodec` strips one trailing carriage return from the line. -/
def stripCR (l : List Char) : List Char :=
  if l.getLast? = some '\r' then l.dropLast else l

/-- `Codec::decode` of `codec.rs`: take one full line off the buffer
(`Ok(None)` when no newline arrived yet), then `serde_json::from_str`; a
line that does not parse as a message is an `InvalidData` error. -/
def codecDecode (src : List Char) : Except String (Option (Message × List Char)) :=
  match findLine src with
  | none => .ok none
  | some (line, rest) =>
    match pMessage (stripCR line) with
    | some (m, []) => .ok (some (m, rest))
    | _ => .error "invalid data"

/-- Validity of a container identity on the wire: its name has only plain
characters (the spec requires a printable identifier). -/
def Container.wf (c : Container) : Bool := plainString c.name

/-- Validity of a mount-table entry value. -/
def Mount.wf : Mount → Bool
  | .bind host => plainString host
  | .tmpfs _ => true
  | .persist => true
  | .resource name _ dir => plainString name && plainString dir

/-- Validity of a manifest: all contained strings are plain. -/
def Manifest.wf (m : Manifest) : Bool :=
  plainString m.name
    && (m.init.all plainString)
    && (m.args.all (fun l => l.all plainString))
    && (m.env.all (fun l => l.all (fun kv => plainString kv.1 && plainString kv.2)))
    && (m.supplGroups.all (fun l => l.all plainString))
    && (m.mounts.all (fun kv => plainString kv.1 && kv.2.wf))
    && (m.seccomp.all (fun l => l.all plainString))

/-- Validity of an `ApiError`: all contained strings are plain. -/
def ApiError.wf : ApiError → Bool
  | .configuration cause => plainString cause
  | .invalidContainer c => c.wf
  | .umountBusy c => c.wf
  | .startContainerStarted c => c.wf
  | .startContainerResource c => c.wf
  | .startContainerMissingResource c r => c.wf && r.wf
  | .startContainerFailed c reason => c.wf && plainString reason
  | .stopContainerNotStarted c => c.wf
  | .invalidRepository r => plainString r
  | .installDuplicate c => c.wf
  | .npkError cause error => plainString cause && plainString error
  | .consoleError e => plainString e
  | .cgroupsError e => plainString e
  | .mountError e => plainString e
  | .keyError e => plainString e
  | .ioError e => plainString e
  | .osError e => plainString e

/-- Validity of a `ContainerData`. -/
def ContainerData.wf (d : ContainerData) : Bool :=
  d.container.wf && plainString d.repository && d.manifest.wf

/-- Validity of a `MountResult`. -/
def MountResult.wf : MountResult → Bool
  | .ok => true
  | .err e => e.wf

/-- Validity of a `Request`. -/
def Request.wf : Request → Bool
  | .containers => true
  | .repositories => true
  | .start c => c.wf
  | .stop c _ => c.wf
  | .mount cs => cs.all Container.wf
  | .umount c => c.wf
  | .install repository _ => plainString repository
  | .uninstall c => c.wf
  | .shutdown => true

/-- Validity of a `Response`. -/
def Response.wf : Response → Bool
  | .containers cs => cs.all ContainerData.wf
  | .repositories rs => rs.all plainString
  | .mount ms => ms.all (fun x => x.1.wf && x.2.wf)
  | .ok => true
  | .err e => e.wf

/-- Validity of a `Notification`. -/
def Notification.wf : Notification → Bool
  | .started c => c.wf
  | .stopped c => c.wf
  | .exit c _ => c.wf
  | .outOfMemory c => c.wf
  | .install name _ => plainString name
  | .uninstalled name _ => plainString name
  | .shutdown => true

/-- Validity of a `Payload`. -/
def Payload.wf : Payload → Bool
  | .connect _ => true
  | .request r => r.wf
  | .response r => r.wf
  | .notification n => n.wf

/-- Validity of a wire `Message`: every string it carries is plain, so the
modelled escape-free serialization covers it. -/
def Message.wf (m : Message) : Bool := m.payload.wf

/-- Does the head of the list (if any) falsify the predicate? Used to state
that a decimal number is followed by a non-digit. -/
def headFails (p : Char → Bool) : List Char → Bool
  | [] => true
  | c :: _ => !p c

/-- The encoding of a list tail: a comma before every element. -/
def sepTail {α : Type} (enc : α → List Char) : List α → List Char
  | [] => []
  | a :: t => [','] ++ enc a ++ sepTail enc t

/-! ### Concrete fixtures used by witnesses and counterexamples -/

/-- Version 0.0.1. -/
def fxV : Version := ⟨0, 0, 1⟩

/-- An application container identity. -/
def fxApp : Container := ⟨"app", fxV⟩

/-- A resource container identity. -/
def fxRes : Container := ⟨"res", fxV⟩

/-- Manifest of the application: has an init and references `res` as a
resource. -/
def fxManifestApp : Manifest :=
  ⟨"app", fxV, some "/init", none, none, none, none, none,
   [("/r", .resource "res" fxV "/")], none, none⟩

/-- Manifest of the resource container: no init. -/
def fxManifestRes : Manifest :=
  ⟨"res", fxV, none, none, none, none, none, none, [], none, none⟩

/-- A state with one keyless repository holding both packages and nothing
mounted. -/
def fxState : State := ⟨[("default", ⟨none, [⟨fxManifestApp⟩, ⟨fxManifestRes⟩]⟩)], []⟩

/-- An environment in which every collaborator call succeeds. -/
def fxEnv : Env :=
  ⟨"/run", fun _ => .ok "/dev/loop0", fun _ => true, fun _ => .ok 42,
   fun _ => .ok (), fun _ => true, fun _ => true, fun _ => .ok (), fun _ => .ok (),
   fun _ => true, fun _ => .ok (.exit 0), fun _ => true, fun _ => 0, fun _ => none, 4096⟩

/-- Like `fxEnv` but mounting `res` fails. -/
def fxEnvResFail : Env :=
  { fxEnv with mountResult := fun c => if c.name = "res" then .error "boom" else .ok "/dev/loop0" }

/-- Like `fxEnv` but every mount fails, with the container name as the
mount error text. -/
def fxEnvBothFail : Env := { fxEnv with mountResult := fun c => .error c.name }

/-- Like `fxEnv` but the launcher's stop fails. -/
def fxEnvStopFail : Env :=
  { fxEnv with launcherStop := fun _ => .error (.osError "kill" "EPERM") }

/-- Like `fxEnv` but the mount control's unmount fails. -/
def fxEnvUmountFail : Env := { fxEnv with umountOk := fun _ => false }

/-- The application, mounted and running. -/
def fxRunningApp : MountedContainer :=
  ⟨fxApp, fxManifestApp, "/run/app:0.0.1", .loopback "/dev/loop0", some ⟨42, none⟩⟩

/-- The application, mounted but not running. -/
def fxIdleApp : MountedContainer :=
  ⟨fxApp, fxManifestApp, "/run/app:0.0.1", .loopback "/dev/loop0", none⟩

/-- The resource, mounted. -/
def fxMountedRes : MountedContainer :=
  ⟨fxRes, fxManifestRes, "/run/res:0.0.1", .loopback "/dev/loop1", none⟩

/-- A state where the application runs and the resource is mounted. -/
def fxStateBusy : State :=
  ⟨fxState.repositories, [(fxApp, fxRunningApp), (fxRes, fxMountedRes)]⟩

/-- A state where only the resource is mounted. -/
def fxStateResMounted : State := ⟨fxState.repositories, [(fxRes, fxMountedRes)]⟩

/-- A stop environment: SIGTERM delivered, wait times out, SIGKILL
delivered, the child died by SIGKILL. -/
def fxStopEnv : StopEnv := ⟨.ok (), false, .ok (), .ok (.signaled 9), .ok (), .ok ()⟩

/-- A stop environment where SIGTERM fails with ESRCH. -/
def fxStopEnvEsrch : StopEnv := ⟨.error 3, true, .ok (), .ok (.exit 7), .ok (), .ok ()⟩

/-- A client environment whose sends succeed. -/
def fxClientEnv : ClientEnv := ⟨fun _ => .ok (), true, fun _ => some 9, .ok ()⟩

/-- A well-formed sample message exercising nested payloads. -/
def fxMessage : Message :=
  ⟨.response (.mount [(fxApp, .ok), (fxRes, .err (.mountError "x"))])⟩

/-! ### Parser combinator lemmas -/

theorem pLit_append (l s : List Char) : pLit l (l ++ s) = some ((), s) := by
  induction l with
  | nil => rfl
  | cons c t ih =>
    show pLit (c :: t) (c :: (t ++ s)) = some ((), s)
    simp only [pLit, if_true]
    exact ih

theorem pseq_pLit {β : Type} (l : List Char) (f : Unit → P β) (s : List Char) :
    pseq (pLit l) f (l ++ s) = f () s := by
  simp only [pseq, pLit_append]

theorem pDone_eq {α : Type} (a : α) (s : List Char) : pDone a s = some (a, s) := rfl

theorem pseq_pDone {α β : Type} (a : α) (f : α → P β) (s : List Char) :
    pseq (pDone a) f s = f a s := rfl

theorem pseq_pMap {α β γ : Type} (g : α → γ) (p : P α) (f : γ → P β) (s : List Char) :
    pseq (pMap g p) f s = pseq p (fun a => f (g a)) s := by
  simp only [pseq, pMap]
  cases p s with
  | none => rfl
  | some x => rfl

theorem pAlt_some {α : Type} {p q : P α} {s : List Char} {x : α × List Char}
    (h : p s = some x) : pAlt p q s = some x := by
  simp only [pAlt, h]

theorem pAlt_tail_some {α : Type} {p q : P α} {s : List Char} {x : α × List Char}
    (h1 : p s = none) (h2 : q s = some x) : pAlt p q s = some x := by
  simp only [pAlt, h1, h2]

/-! ### Decimal number lemmas -/

theorem isDig_digitChar (d : Nat) : isDig (digitChar d) = true := by
  unfold digitChar
  split <;> rfl

theorem digitVal_digitChar (d : Nat) (h : d < 10) : digitVal (digitChar d) = d := by
  interval_cases d <;> rfl

theorem natCharsAux_append (fuel : Nat) :
    ∀ (n : Nat) (acc : List Char), n ≤ fuel →
      natCharsAux fuel n acc = natCharsAux fuel n [] ++ acc := by
  induction fuel with
  | zero => intro n acc _; rfl
  | succ fuel ih =>
    intro n acc hn
    by_cases h : n = 0
    · simp [natCharsAux, h]
    · have hd : n / 10 ≤ fuel := by
        have := Nat.div_lt_self (Nat.pos_of_ne_zero h) (by decide : 1 < 10)
        omega
      simp only [natCharsAux, if_neg h]
      rw [ih (n / 10) (digitChar (n % 10) :: acc) hd,
        ih (n / 10) [digitChar (n % 10)] hd]
      simp

theorem natCharsAux_all_dig (fuel : Nat) :
    ∀ n : Nat, n ≤ fuel → (natCharsAux fuel n []).all isDig = true := by
  induction fuel with
  | zero => intro n _; rfl
  | succ fuel ih =>
    intro n hn
    by_cases h : n = 0
    · simp [natCharsAux, h]
    · have hd : n / 10 ≤ fuel := by
        have := Nat.div_lt_self (Nat.pos_of_ne_zero h) (by decide : 1 < 10)
        omega
      simp only [natCharsAux, if_neg h]
      rw [natCharsAux_append fuel (n / 10) [digitChar (n % 10)] hd]
      simp [List.all_append, ih (n / 10) hd, isDig_digitChar]

theorem natChars_all_dig (n : Nat) : (natChars n).all isDig = true := by
  by_cases h : n = 0
  · subst h; rfl
  · unfold natChars
    simp only [if_neg h]
    exact natCharsAux_all_dig n n le_rfl

theorem natCharsAux_ne_nil (fuel n : Nat) (hfuel : n ≤ fuel) (h : n ≠ 0) :
    natCharsAux fuel n [] ≠ [] := by
  cases fuel with
  | zero => omega
  | succ fuel =>
    have hd : n / 10 ≤ fuel := by
      have := Nat.div_lt_self (Nat.pos_of_ne_zero h) (by decide : 1 < 10)
      omega
    simp only [natCharsAux, if_neg h]
    rw [natCharsAux_append fuel (n / 10) [digitChar (n % 10)] hd]
    simp

theorem natChars_ne_nil (n : Nat) : natChars n ≠ [] := by
  unfold natChars
  by_cases h : n = 0 <;> simp [h, natCharsAux_ne_nil n n le_rfl]

theorem natChars_head_dig (n : Nat) :
    ∃ c t, natChars n = c :: t ∧ isDig c = true := by
  rcases hn : natChars n with _ | ⟨c, t⟩
  · exact absurd hn (natChars_ne_nil n)
  · refine ⟨c, t, rfl, ?_⟩
    have := natChars_all_dig n
    rw [hn] at this
    simp only [List.all_cons, Bool.and_eq_true] at this
    exact this.1

theorem foldl_digits_aux (fuel : Nat) :
    ∀ n : Nat, n ≤ fuel → ∀ a,
      (natCharsAux fuel n []).foldl (fun a c => a * 10 + digitVal c) a
        = a * 10 ^ (natCharsAux fuel n []).length + n := by
  induction fuel with
  | zero =>
    intro n hn a
    interval_cases n
    simp [natCharsAux]
  | succ fuel ih =>
    intro n hn a
    by_cases h : n = 0
    · simp [natCharsAux, h]
    · have hd : n / 10 ≤ fuel := by
        have := Nat.div_lt_self (Nat.pos_of_ne_zero h) (by decide : 1 < 10)
        omega
      simp only [natCharsAux, if_neg h]
      rw [natCharsAux_append fuel (n / 10) [digitChar (n % 10)] hd]
      rw [List.foldl_append, List.length_append]
      rw [ih (n / 10) hd a]
      simp only [List.foldl_cons, List.foldl_nil, List.length_cons, List.length_nil]
      rw [digitVal_digitChar (n % 10) (Nat.mod_lt n (by decide))]
      have hmod : n % 10 + 10 * (n / 10) = n := Nat.mod_add_div n 10
      ring_nf
      omega

theorem foldl_natChars (n : Nat) :
    (natChars n).foldl (fun a c => a * 10 + digitVal c) 0 = n := by
  unfold natChars
  by_cases h : n = 0
  · simp [h]
    rfl
  · simp only [if_neg h]
    rw [foldl_digits_aux n n le_rfl 0]
    simp

theorem takeWhile_append_of_all {p : Char → Bool} (l s : List Char)
    (hl : l.all p = true) (hs : headFails p s = true) :
    (l ++ s).takeWhile p = l := by
  induction l with
  | nil =>
    cases s with
    | nil => rfl
    | cons c t =>
      simp only [headFails, Bool.not_eq_true'] at hs
      simp [List.takeWhile_cons, hs]
  | cons c t ih =>
    simp only [List.all_cons, Bool.and_eq_true] at hl
    simp [List.takeWhile_cons, hl.1, ih hl.2]

theorem dropWhile_append_of_all {p : Char → Bool} (l s : List Char)
    (hl : l.all p = true) (hs : headFails p s = true) :
    (l ++ s).dropWhile p = s := by
  induction l with
  | nil =>
    cases s with
    | nil => rfl
    | cons c t =>
      simp only [headFails, Bool.not_eq_true'] at hs
      simp [List.dropWhile_cons, hs]
  | cons c t ih =>
    simp only [List.all_cons, Bool.and_eq_true] at hl
    simp [List.dropWhile_cons, hl.1, ih hl.2]

theorem pNat_spec (n : Nat) (s : List Char) (h : headFails isDig s = true) :
    pNat (natChars n ++ s) = some (n, s) := by
  unfold pNat
  rw [takeWhile_append_of_all (natChars n) s (natChars_all_dig n) h]
  rw [dropWhile_append_of_all (natChars n) s (natChars_all_dig n) h]
  simp [List.isEmpty_iff, natChars_ne_nil n, foldl_natChars]

theorem pseq_pNat {β : Type} (n : Nat) (f : Nat → P β) (s : List Char)
    (h : headFails isDig s = true) : pseq pNat f (natChars n ++ s) = f n s := by
  simp only [pseq, pNat_spec n s h]

theorem isDig_ne_dash {c : Char} (h : isDig c = true) : c ≠ '-' := by
  intro he
  subst he
  exact absurd h (by decide)

theorem isDig_ne_n {c : Char} (h : isDig c = true) : c ≠ 'n' := by
  intro he
  subst he
  exact absurd h (by decide)

theorem pInt_spec (i : Int) (s : List Char) (h : headFails isDig s = true) :
    pInt (intChars i ++ s) = some (i, s) := by
  by_cases hneg : i < 0
  · have h1 : intChars i ++ s = '-' :: (natChars i.natAbs ++ s) := by
      simp [intChars, if_pos hneg]
    rw [h1]
    show Option.map (fun x => (-(x.1 : Int), x.2)) (pNat (natChars i.natAbs ++ s)) = some (i, s)
    rw [pNat_spec i.natAbs s h]
    have hi : -(i.natAbs : Int) = i := by omega
    simp only [Option.map_some', Option.some.injEq, Prod.mk.injEq]
    exact ⟨hi, trivial⟩
  · have h1 : intChars i ++ s = natChars i.natAbs ++ s := by
      simp [intChars, if_neg hneg]
    obtain ⟨c, t, hct, hdig⟩ := natChars_head_dig i.natAbs
    have h2 : natChars i.natAbs ++ s = c :: (t ++ s) := by rw [hct]; rfl
    rw [h1, h2]
    show (if c = '-' then Option.map (fun x => (-(x.1 : Int), x.2)) (pNat (t ++ s))
        else Option.map (fun x => ((x.1 : Int), x.2)) (pNat (c :: (t ++ s)))) = some (i, s)
    rw [if_neg (isDig_ne_dash hdig), ← h2, pNat_spec i.natAbs s h]
    have hi : ((i.natAbs : Nat) : Int) = i := by omega
    simp only [Option.map_some', Option.some.injEq, Prod.mk.injEq]
    exact ⟨hi, trivial⟩

theorem pseq_pInt {β : Type} (i : Int) (f : Int → P β) (s : List Char)
    (h : headFails isDig s = true) : pseq pInt f (intChars i ++ s) = f i s := by
  simp only [pseq, pInt_spec i s h]

/-! ### String and boolean lemmas -/

theorem takeUntilQuote_append (l r : List Char) (hl : l.all plainChar = true) :
    takeUntilQuote (l ++ '"' :: r) = some (l, r) := by
  induction l with
  | nil =>
    show takeUntilQuote ('"' :: r) = some ([], r)
    simp [takeUntilQuote]
  | cons c t ih =>
    simp only [List.all_cons, Bool.and_eq_true] at hl
    have hc : c ≠ '"' := by
      have := hl.1
      simp only [plainChar, Bool.and_eq_true, decide_eq_true_eq] at this
      exact this.1.1.1
    show takeUntilQuote (c :: (t ++ '"' :: r)) = some (c :: t, r)
    simp only [takeUntilQuote, if_neg hc, ih hl.2, Option.map]

theorem mk_data (s : String) : String.mk s.data = s := rfl

theorem pStr_spec (st : String) (s : List Char) (h : plainString st = true) :
    pStr (strChars st ++ s) = some (st, s) := by
  show Option.map (fun x => (String.mk x.1, x.2)) (takeUntilQuote ((st.data ++ ['"']) ++ s))
      = some (st, s)
  rw [List.append_assoc, List.singleton_append, takeUntilQuote_append st.data s h]
  simp [mk_data]

theorem pseq_pStr {β : Type} (st : String) (f : String → P β) (s : List Char)
    (h : plainString st = true) : pseq pStr f (strChars st ++ s) = f st s := by
  simp only [pseq, pStr_spec st s h]

theorem pseq_pBool {β : Type} (b : Bool) (f : Bool → P β) (s : List Char) :
    pseq pBool f (boolChars b ++ s) = f b s := by
  cases b <;> rfl

/-! ### Option lemmas -/

theorem pseq_pOpt_of {α β : Type} (p : P α) (enc : α → List Char) (o : Option α)
    (f : Option α → P β) (s : List Char)
    (hmiss : ∀ a, o = some a → pLit ['n', 'u', 'l', 'l'] (enc a ++ s) = none)
    (hp : ∀ a, o = some a → p (enc a ++ s) = some (a, s)) :
    pseq (pOpt p) f (optChars enc o ++ s) = f o s := by
  cases o with
  | none => rfl
  | some a =>
    show pseq (pOpt p) f (enc a ++ s) = f (some a) s
    simp only [pseq, pOpt, hmiss a rfl, hp a rfl, Option.map]

theorem pseq_pOpt_pNat {β : Type} (o : Option Nat) (f : Option Nat → P β) (s : List Char)
    (h : headFails isDig s = true) :
    pseq (pOpt pNat) f (optChars natChars o ++ s) = f o s := by
  refine pseq_pOpt_of pNat natChars o f s ?_ ?_
  · intro a _
    obtain ⟨c, t, hct, hdig⟩ := natChars_head_dig a
    rw [hct]
    show pLit ['n', 'u', 'l', 'l'] (c :: (t ++ s)) = none
    simp only [pLit, if_neg (isDig_ne_n hdig)]
  · intro a _
    exact pNat_spec a s h

/-! ### Collection lemmas -/

theorem sepBy_cons {α : Type} (enc : α → List Char) (a : α) (t : List α) :
    sepBy enc (a :: t) = enc a ++ sepTail enc t := by
  induction t generalizing a with
  | nil => simp [sepBy, sepTail]
  | cons b t' ih =>
    show enc a ++ ',' :: sepBy enc (b :: t') = enc a ++ sepTail enc (b :: t')
    rw [ih b]
    simp [sepTail]

theorem sepTail_length {α : Type} (enc : α → List Char) (t : List α) :
    t.length ≤ (sepTail enc t).length := by
  induction t with
  | nil => simp [sepTail]
  | cons a t' ih =>
    simp only [sepTail, List.length_append, List.length_cons]
    omega

theorem pCollTail_spec {α : Type} (cls : Char) (p : P α) (enc : α → List Char)
    (hcomma : cls ≠ ',') (xs : List α)
    (hp : ∀ a ∈ xs, ∀ r, p (enc a ++ r) = some (a, r)) :
    ∀ (fuel : Nat) (acc : List α) (s : List Char), xs.length < fuel →
      pCollTail cls p fuel acc (sepTail enc xs ++ cls :: s) = some (acc.reverse ++ xs, s) := by
  induction xs with
  | nil =>
    intro fuel acc s hf
    cases fuel with
    | zero => omega
    | succ fuel =>
      show pCollTail cls p (fuel + 1) acc (cls :: s) = _
      simp [pCollTail]
  | cons a t ih =>
    intro fuel acc s hf
    cases fuel with
    | zero => omega
    | succ fuel =>
      have hstep : sepTail enc (a :: t) ++ cls :: s
          = ',' :: (enc a ++ (sepTail enc t ++ cls :: s)) := by
        simp [sepTail, List.append_assoc]
      rw [hstep]
      simp only [pCollTail]
      rw [if_neg (fun he => hcomma he.symm)]
      simp only [if_true]
      rw [hp a (List.mem_cons_self a t) (sepTail enc t ++ cls :: s)]
      show pCollTail cls p fuel (a :: acc) (sepTail enc t ++ cls :: s)
          = some (acc.reverse ++ a :: t, s)
      rw [ih (fun b hb r => hp b (List.mem_cons_of_mem a hb) r) fuel (a :: acc) s
        (by simp at hf ⊢; omega)]
      simp

theorem pColl_spec {α : Type} (opn cls : Char) (p : P α) (enc : α → List Char)
    (hcomma : cls ≠ ',') (xs : List α) (s : List Char)
    (hp : ∀ a ∈ xs, ∀ r, p (enc a ++ r) = some (a, r))
    (hhd : ∀ a, (enc a).head? ≠ some cls)
    (hnil : ∀ a, enc a ≠ []) :
    pColl opn cls p (collChars opn cls enc xs ++ s) = some (xs, s) := by
  cases xs with
  | nil =>
    show pColl opn cls p (opn :: (([] ++ [cls]) ++ s)) = some ([], s)
    simp only [pColl, List.nil_append, List.singleton_append, if_true]
    simp
  | cons a t =>
    have hshape : collChars opn cls enc (a :: t) ++ s
        = opn :: (enc a ++ (sepTail enc t ++ cls :: s)) := by
      show (opn :: sepBy enc (a :: t) ++ [cls]) ++ s = _
      rw [sepBy_cons]
      simp [List.append_assoc]
    rw [hshape]
    obtain ⟨c, tt, hct⟩ : ∃ c tt, enc a = c :: tt := by
      cases he : enc a with
      | nil => exact absurd he (hnil a)
      | cons c tt => exact ⟨c, tt, rfl⟩
    have hh : (enc a ++ (sepTail enc t ++ cls :: s)).head? ≠ some cls := by
      rw [hct]
      have := hhd a
      rw [hct] at this
      simpa using this
    simp only [pColl, if_true]
    rw [if_neg hh]
    rw [hp a (List.mem_cons_self a t) (sepTail enc t ++ cls :: s)]
    show pCollTail cls p ((sepTail enc t ++ cls :: s).length + 1) [a]
        (sepTail enc t ++ cls :: s) = some (a :: t, s)
    rw [pCollTail_spec cls p enc hcomma t
      (fun b hb r => hp b (List.mem_cons_of_mem a hb) r)
      ((sepTail enc t ++ cls :: s).length + 1) [a] s
      (by have := sepTail_length enc t; simp [List.length_append]; omega)]
    simp

theorem pseq_pColl {α β : Type} (opn cls : Char) (p : P α) (enc : α → List Char)
    (hcomma : cls ≠ ',') (xs : List α) (f : List α → P β) (s : List Char)
    (hp : ∀ a ∈ xs, ∀ r, p (enc a ++ r) = some (a, r))
    (hhd : ∀ a, (enc a).head? ≠ some cls)
    (hnil : ∀ a, enc a ≠ []) :
    pseq (pColl opn cls p) f (collChars opn cls enc xs ++ s) = f xs s := by
  simp only [pseq, pColl_spec opn cls p enc hcomma xs s hp hhd hnil]

/-! ### Per-type serialization roundtrips -/

theorem headFails_cons_append (p : Char → Bool) (c : Char) (l t : List Char) :
    headFails p ((c :: l) ++ t) = !p c := rfl

theorem isDig_dot : isDig '.' = false := rfl

theorem isDig_quote : isDig '"' = false := rfl

theorem isDig_comma : isDig ',' = false := rfl

theorem isDig_rbrack : isDig ']' = false := rfl

theorem isDig_rbrace : isDig '\x7d' = false := rfl

theorem isDig_RBc : isDig RB = false := rfl

theorem pseq_assoc {α β γ : Type} (p : P α) (f : α → P β) (g : β → P γ) (s : List Char) :
    pseq (pseq p f) g s = pseq p (fun a => pseq (f a) g) s := by
  simp only [pseq]
  cases p s with
  | none => rfl
  | some x => rfl

theorem head_ne_of_head_eq {l : List Char} {c cls : Char} (h : l.head? = some c)
    (hne : c ≠ cls) : l.head? ≠ some cls := by
  rw [h]
  intro he
  exact hne (Option.some.inj he)

theorem ne_nil_of_head {l : List Char} {c : Char} (h : l.head? = some c) : l ≠ [] := by
  intro he
  rw [he] at h
  cases h

theorem strChars_head (x : String) : (strChars x).head? = some '"' := rfl

theorem pVersion_spec (v : Version) (s : List Char) :
    pVersion (encVersion v ++ s) = some (v, s) := by
  obtain ⟨ma, mi, pa⟩ := v
  simp only [encVersion, pVersion, List.append_assoc, pseq_pLit, pseq_pNat, pDone_eq,
    headFails_cons_append, isDig_dot, isDig_quote, Bool.not_false]

theorem pseq_pVersion {β : Type} (v : Version) (f : Version → P β) (s : List Char) :
    pseq pVersion f (encVersion v ++ s) = f v s := by
  simp only [pseq, pVersion_spec]

theorem encVersion_head (v : Version) : (encVersion v).head? = some '"' := rfl

theorem pContainer_spec (c : Container) (h : c.wf = true) (s : List Char) :
    pContainer (encContainer c ++ s) = some (c, s) := by
  obtain ⟨name, version⟩ := c
  have hname : plainString name = true := by simpa [Container.wf] using h
  simp only [encContainer, pContainer, lit, List.append_assoc, pseq_pLit, pseq_pStr,
    pseq_pVersion, pDone_eq, hname]

theorem pseq_pContainer {β : Type} (c : Container) (f : Container → P β) (s : List Char)
    (h : c.wf = true) : pseq pContainer f (encContainer c ++ s) = f c s := by
  simp only [pseq, pContainer_spec c h]

theorem encContainer_head (c : Container) : (encContainer c).head? = some LB := rfl

theorem encMount_spec (m : Mount) (h : m.wf = true) (s : List Char) :
    pMount (encMount m ++ s) = some (m, s) := by
  cases m with
  | bind host =>
    have hh : plainString host = true := by simpa [Mount.wf] using h
    refine pAlt_some ?_
    simp only [encMount, pWrap, lit, List.append_assoc, pseq_pLit, pseq_pMap, pseq_pStr,
      pDone_eq, hh]
  | tmpfs size =>
    refine pAlt_tail_some rfl (pAlt_some ?_)
    simp only [encMount, pWrap, lit, List.append_assoc, pseq_pLit, pseq_pMap, pseq_pNat,
      pDone_eq, headFails_cons_append, isDig_rbrace, Bool.not_false]
  | persist =>
    exact pAlt_tail_some rfl (pAlt_tail_some rfl (pAlt_some rfl))
  | resource name version dir =>
    have hh : plainString name = true ∧ plainString dir = true := by
      simpa [Mount.wf] using h
    refine pAlt_tail_some rfl (pAlt_tail_some rfl (pAlt_tail_some rfl ?_))
    simp only [encMount, pWrap, lit, List.append_assoc, pseq_assoc, pseq_pLit,
      pseq_pStr, pseq_pVersion, pDone_eq, pseq_pDone, hh.1, hh.2]

theorem pseq_pMount {β : Type} (m : Mount) (f : Mount → P β) (s : List Char)
    (h : m.wf = true) : pseq pMount f (encMount m ++ s) = f m s := by
  simp only [pseq, encMount_spec m h]

theorem encEnvEntry_spec (kv : String × String) (h : plainString kv.1 = true)
    (h2 : plainString kv.2 = true) (s : List Char) :
    pEnvEntry (encEnvEntry kv ++ s) = some (kv, s) := by
  obtain ⟨k, v⟩ := kv
  simp only [encEnvEntry, pEnvEntry, List.append_assoc, pseq_pLit, pseq_pStr, pDone_eq,
    h, h2]

theorem encEnvEntry_head (kv : String × String) : (encEnvEntry kv).head? = some '"' := rfl

theorem encMountEntry_spec (kv : String × Mount) (h : plainString kv.1 = true)
    (h2 : kv.2.wf = true) (s : List Char) :
    pMountEntry (encMountEntry kv ++ s) = some (kv, s) := by
  obtain ⟨k, v⟩ := kv
  simp only [encMountEntry, pMountEntry, List.append_assoc, pseq_pLit, pseq_pStr,
    pseq_pMount, pDone_eq, h, h2]

theorem encMountEntry_head (kv : String × Mount) : (encMountEntry kv).head? = some '"' := rfl

theorem pCGroupLimits_spec (g : CGroupLimits) (s : List Char) :
    pCGroupLimits (encCGroupLimits g ++ s) = some (g, s) := by
  obtain ⟨mem, cpu⟩ := g
  simp only [encCGroupLimits, pCGroupLimits, lit, List.append_assoc, pseq_pLit,
    pseq_pOpt_pNat, pDone_eq, pseq_pDone, headFails_cons_append, isDig_comma, isDig_rbrace,
    isDig_RBc, Bool.not_false]

theorem pseq_pOpt_pCGroupLimits {β : Type} (o : Option CGroupLimits)
    (f : Option CGroupLimits → P β) (s : List Char) :
    pseq (pOpt pCGroupLimits) f (optChars encCGroupLimits o ++ s) = f o s :=
  pseq_pOpt_of pCGroupLimits encCGroupLimits o f s (fun _ _ => rfl)
    (fun a _ => pCGroupLimits_spec a s)

theorem pseq_pOpt_pStr {β : Type} (o : Option String) (f : Option String → P β)
    (s : List Char) (h : o.all plainString = true) :
    pseq (pOpt pStr) f (optChars strChars o ++ s) = f o s := by
  refine pseq_pOpt_of pStr strChars o f s (fun _ _ => rfl) ?_
  intro a ha
  exact pStr_spec a s (by rw [ha] at h; simpa using h)

theorem pseq_pOpt_strList {β : Type} (o : Option (List String))
    (f : Option (List String) → P β) (s : List Char)
    (h : o.all (fun l => l.all plainString) = true) :
    pseq (pOpt (pColl '[' ']' pStr)) f (optChars (collChars '[' ']' strChars) o ++ s)
      = f o s := by
  refine pseq_pOpt_of _ _ o f s (fun _ _ => rfl) ?_
  intro l hl
  have hall : l.all plainString = true := by rw [hl] at h; simpa using h
  refine pColl_spec '[' ']' pStr strChars (by decide) l s ?_ ?_ ?_
  · intro a ha r
    exact pStr_spec a r (List.all_eq_true.mp hall a ha)
  · intro a
    exact head_ne_of_head_eq (strChars_head a) (by decide)
  · intro a
    exact ne_nil_of_head (strChars_head a)

theorem pseq_pOpt_envList {β : Type} (o : Option (List (String × String)))
    (f : Option (List (String × String)) → P β) (s : List Char)
    (h : o.all (fun l => l.all (fun kv => plainString kv.1 && plainString kv.2)) = true) :
    pseq (pOpt (pColl LB RB pEnvEntry)) f (optChars (collChars LB RB encEnvEntry) o ++ s)
      = f o s := by
  refine pseq_pOpt_of _ _ o f s (fun _ _ => rfl) ?_
  intro l hl
  have hall : l.all (fun kv => plainString kv.1 && plainString kv.2) = true := by
    rw [hl] at h; simpa using h
  refine pColl_spec LB RB pEnvEntry encEnvEntry (by decide) l s ?_ ?_ ?_
  · intro a ha r
    have := List.all_eq_true.mp hall a ha
    simp only [Bool.and_eq_true] at this
    exact encEnvEntry_spec a this.1 this.2 r
  · intro a
    exact head_ne_of_head_eq (encEnvEntry_head a) (by decide)
  · intro a
    exact ne_nil_of_head (encEnvEntry_head a)

theorem pseq_mounts {β : Type} (xs : List (String × Mount))
    (f : List (String × Mount) → P β) (s : List Char)
    (h : xs.all (fun kv => plainString kv.1 && kv.2.wf) = true) :
    pseq (pColl LB RB pMountEntry) f (collChars LB RB encMountEntry xs ++ s) = f xs s := by
  refine pseq_pColl LB RB pMountEntry encMountEntry (by decide) xs f s ?_ ?_ ?_
  · intro a ha r
    have := List.all_eq_true.mp h a ha
    simp only [Bool.and_eq_true] at this
    exact encMountEntry_spec a this.1 this.2 r
  · intro a
    exact head_ne_of_head_eq (encMountEntry_head a) (by decide)
  · intro a
    exact ne_nil_of_head (encMountEntry_head a)

theorem pManifest_spec (m : Manifest) (h : m.wf = true) (s : List Char) :
    pManifest (encManifest m ++ s) = some (m, s) := by
  obtain ⟨name, version, init, args, env, uid, gid, supplGroups, mounts, seccomp, cg⟩ := m
  simp only [Manifest.wf, Bool.and_eq_true] at h
  obtain ⟨⟨⟨⟨⟨⟨h1, h2⟩, h3⟩, h4⟩, h5⟩, h6⟩, h7⟩ := h
  simp only [encManifest, pManifest, lit, List.append_assoc, pseq_pLit, pseq_pStr,
    pseq_pVersion, pseq_pOpt_pStr, pseq_pOpt_strList, pseq_pOpt_envList, pseq_mounts,
    pseq_pOpt_pNat, pseq_pOpt_pCGroupLimits, pDone_eq, pseq_pDone, headFails_cons_append,
    isDig_comma, Bool.not_false, h1, h2, h3, h4, h5, h6, h7]

theorem pseq_pManifest {β : Type} (m : Manifest) (f : Manifest → P β) (s : List Char)
    (h : m.wf = true) : pseq pManifest f (encManifest m ++ s) = f m s := by
  simp only [pseq, pManifest_spec m h]

theorem pExitStatus_spec (e : ExitStatus) (s : List Char) :
    pExitStatus (encExitStatus e ++ s) = some (e, s) := by
  cases e with
  | exit code =>
    refine pAlt_some ?_
    simp only [encExitStatus, pWrap, lit, List.append_assoc, pseq_pLit, pseq_pMap,
      pseq_pInt, pDone_eq, pseq_pDone, headFails_cons_append, isDig_rbrace, Bool.not_false]
  | signaled sig =>
    refine pAlt_tail_some rfl ?_
    simp only [encExitStatus, pWrap, lit, List.append_assoc, pseq_pLit, pseq_pMap,
      pseq_pNat, pDone_eq, pseq_pDone, headFails_cons_append, isDig_rbrace, Bool.not_false]

theorem pseq_pExitStatus {β : Type} (e : ExitStatus) (f : ExitStatus → P β) (s : List Char) :
    pseq pExitStatus f (encExitStatus e ++ s) = f e s := by
  simp only [pseq, pExitStatus_spec]

theorem pMemory_spec (m : Memory) (s : List Char) :
    pMemory (encMemory m ++ s) = some (m, s) := by
  obtain ⟨a, b, c, d, e⟩ := m
  simp only [encMemory, pMemory, lit, List.append_assoc, pseq_pLit, pseq_pNat, pDone_eq,
    pseq_pDone, headFails_cons_append, isDig_comma, isDig_RBc, Bool.not_false]

theorem pResources_spec (r : Resources) (s : List Char) :
    pResources (encResources r ++ s) = some (r, s) := by
  obtain ⟨mem⟩ := r
  have hop : ∀ (f : Option Memory → P Resources) s',
      pseq (pOpt pMemory) f (optChars encMemory mem ++ s') = f mem s' :=
    fun f s' => pseq_pOpt_of pMemory encMemory mem f s' (fun _ _ => rfl)
      (fun a _ => pMemory_spec a s')
  simp only [encResources, pResources, lit, List.append_assoc, pseq_pLit, hop, pDone_eq,
    pseq_pDone]

theorem pProcessInfo_spec (p : ProcessInfo) (s : List Char) :
    pProcessInfo (encProcessInfo p ++ s) = some (p, s) := by
  obtain ⟨pid, uptime, resources⟩ := p
  have hres : ∀ (f : Resources → P ProcessInfo) s',
      pseq pResources f (encResources resources ++ s') = f resources s' :=
    fun f s' => by simp only [pseq, pResources_spec]
  simp only [encProcessInfo, pProcessInfo, lit, List.append_assoc, pseq_pLit, pseq_pNat,
    hres, pDone_eq, pseq_pDone, headFails_cons_append, isDig_comma, Bool.not_false]

theorem pContainerData_spec (d : ContainerData) (h : d.wf = true) (s : List Char) :
    pContainerData (encContainerData d ++ s) = some (d, s) := by
  obtain ⟨container, repository, manifest, process, mounted⟩ := d
  simp only [ContainerData.wf, Bool.and_eq_true] at h
  obtain ⟨⟨h1, h2⟩, h3⟩ := h
  have hop : ∀ (f : Option ProcessInfo → P ContainerData) s',
      pseq (pOpt pProcessInfo) f (optChars encProcessInfo process ++ s') = f process s' :=
    fun f s' => pseq_pOpt_of pProcessInfo encProcessInfo process f s' (fun _ _ => rfl)
      (fun a _ => pProcessInfo_spec a s')
  simp only [encContainerData, pContainerData, lit, List.append_assoc, pseq_pLit,
    pseq_pContainer, pseq_pStr, pseq_pManifest, hop, pseq_pBool, pDone_eq, pseq_pDone,
    h1, h2, h3]

theorem encContainerData_head (d : ContainerData) : (encContainerData d).head? = some LB := rfl

theorem pApiError_spec (e : ApiError) (h : e.wf = true) (s : List Char) :
    pApiError (encApiError e ++ s) = some (e, s) := by
  cases e with
  | configuration cause =>
    have hc : plainString cause = true := by simpa [ApiError.wf] using h
    refine pAlt_some ?_
    simp only [encApiError, pWrap, lit, List.append_assoc, pseq_assoc, pseq_pLit,
      pseq_pMap, pseq_pStr, pDone_eq, pseq_pDone, hc]
  | invalidContainer c =>
    have hc : c.wf = true := by simpa [ApiError.wf] using h
    refine pAlt_tail_some rfl (pAlt_some ?_)
    simp only [encApiError, pWrap, lit, List.append_assoc, pseq_assoc, pseq_pLit,
      pseq_pMap, pseq_pContainer, pDone_eq, pseq_pDone, hc]
  | umountBusy c =>
    have hc : c.wf = true := by simpa [ApiError.wf] using h
    refine pAlt_tail_some rfl (pAlt_tail_some rfl (pAlt_some ?_))
    simp only [encApiError, pWrap, lit, List.append_assoc, pseq_assoc, pseq_pLit,
      pseq_pMap, pseq_pContainer, pDone_eq, pseq_pDone, hc]
  | startContainerStarted c =>
    have hc : c.wf = true := by simpa [ApiError.wf] using h
    refine pAlt_tail_some rfl (pAlt_tail_some rfl (pAlt_tail_some rfl (pAlt_some ?_)))
    simp only [encApiError, pWrap, lit, List.append_assoc, pseq_assoc, pseq_pLit,
      pseq_pMap, pseq_pContainer, pDone_eq, pseq_pDone, hc]
  | startContainerResource c =>
    have hc : c.wf = true := by simpa [ApiError.wf] using h
    refine pAlt_tail_some rfl (pAlt_tail_some rfl (pAlt_tail_some rfl
      (pAlt_tail_some rfl (pAlt_some ?_))))
    simp only [encApiError, pWrap, lit, List.append_assoc, pseq_assoc, pseq_pLit,
      pseq_pMap, pseq_pContainer, pDone_eq, pseq_pDone, hc]
  | startContainerMissingResource c r =>
    have hc : c.wf = true ∧ r.wf = true := by simpa [ApiError.wf] using h
    refine pAlt_tail_some rfl (pAlt_tail_some rfl (pAlt_tail_some rfl
      (pAlt_tail_some rfl (pAlt_tail_some rfl (pAlt_some ?_)))))
    simp only [encApiError, pWrap, lit, List.append_assoc, pseq_assoc, pseq_pLit,
      pseq_pMap, pseq_pContainer, pDone_eq, pseq_pDone, hc.1, hc.2]
  | startContainerFailed c reason =>
    have hc : c.wf = true ∧ plainString reason = true := by simpa [ApiError.wf] using h
    refine pAlt_tail_some rfl (pAlt_tail_some rfl (pAlt_tail_some rfl
      (pAlt_tail_some rfl (pAlt_tail_some rfl (pAlt_tail_some rfl (pAlt_some ?_))))))
    simp only [encApiError, pWrap, lit, List.append_assoc, pseq_assoc, pseq_pLit,
      pseq_pMap, pseq_pContainer, pseq_pStr, pDone_eq, pseq_pDone, hc.1, hc.2]
  | stopContainerNotStarted c =>
    have hc : c.wf = true := by simpa [ApiError.wf] using h
    refine pAlt_tail_some rfl (pAlt_tail_some rfl (pAlt_tail_some rfl
      (pAlt_tail_some rfl (pAlt_tail_some rfl (pAlt_tail_some rfl
      (pAlt_tail_some rfl (pAlt_some ?_)))))))
    simp only [encApiError, pWrap, lit, List.append_assoc, pseq_assoc, pseq_pLit,
      pseq_pMap, pseq_pContainer, pDone_eq, pseq_pDone, hc]
  | invalidRepository r =>
    have hc : plainString r = true := by simpa [ApiError.wf] using h
    refine pAlt_tail_some rfl (pAlt_tail_some rfl (pAlt_tail_some rfl
      (pAlt_tail_some rfl (pAlt_tail_some rfl (pAlt_tail_some rfl
      (pAlt_tail_some rfl (pAlt_tail_some rfl (pAlt_some ?_))))))))
    simp only [encApiError, pWrap, lit, List.append_assoc, pseq_assoc, pseq_pLit,
      pseq_pMap, pseq_pStr, pDone_eq, pseq_pDone, hc]
  | installDuplicate c =>
    have hc : c.wf = true := by simpa [ApiError.wf] using h
    refine pAlt_tail_some rfl (pAlt_tail_some rfl (pAlt_tail_some rfl
      (pAlt_tail_some rfl (pAlt_tail_some rfl (pAlt_tail_some rfl
      (pAlt_tail_some rfl (pAlt_tail_some rfl (pAlt_tail_some rfl (pAlt_some ?_)))))))))
    simp only [encApiError, pWrap, lit, List.append_assoc, pseq_assoc, pseq_pLit,
      pseq_pMap, pseq_pContainer, pDone_eq, pseq_pDone, hc]
  | npkError cause error =>
    have hc : plainString cause = true ∧ plainString error = true := by
      simpa [ApiError.wf] using h
    refine pAlt_tail_some rfl (pAlt_tail_some rfl (pAlt_tail_some rfl
      (pAlt_tail_some rfl (pAlt_tail_some rfl (pAlt_tail_some rfl
      (pAlt_tail_some rfl (pAlt_tail_some rfl (pAlt_tail_some rfl
      (pAlt_tail_some rfl (pAlt_some ?_))))))))))
    simp only [encApiError, pWrap, lit, List.append_assoc, pseq_assoc, pseq_pLit,
      pseq_pMap, pseq_pStr, pDone_eq, pseq_pDone, hc.1, hc.2]
  | consoleError e =>
    have hc : plainString e = true := by simpa [ApiError.wf] using h
    refine pAlt_tail_some rfl (pAlt_tail_some rfl (pAlt_tail_some rfl
      (pAlt_tail_some rfl (pAlt_tail_some rfl (pAlt_tail_some rfl
      (pAlt_tail_some rfl (pAlt_tail_some rfl (pAlt_tail_some rfl
      (pAlt_tail_some rfl (pAlt_tail_some rfl (pAlt_some ?_)))))))))))
    simp only [encApiError, pWrap, lit, List.append_assoc, pseq_assoc, pseq_pLit,
      pseq_pMap, pseq_pStr, pDone_eq, pseq_pDone, hc]
  | cgroupsError e =>
    have hc : plainString e = true := by simpa [ApiError.wf] using h
    refine pAlt_tail_some rfl (pAlt_tail_some rfl (pAlt_tail_some rfl
      (pAlt_tail_some rfl (pAlt_tail_some rfl (pAlt_tail_some rfl
      (pAlt_tail_some rfl (pAlt_tail_some rfl (pAlt_tail_some rfl
      (pAlt_tail_some rfl (pAlt_tail_some rfl (pAlt_tail_some rfl (pAlt_some ?_))))))))))))
    simp only [encApiError, pWrap, lit, List.append_assoc, pseq_assoc, pseq_pLit,
      pseq_pMap, pseq_pStr, pDone_eq, pseq_pDone, hc]
  | mountError e =>
    have hc : plainString e = true := by simpa [ApiError.wf] using h
    refine pAlt_tail_some rfl (pAlt_tail_some rfl (pAlt_tail_some rfl
      (pAlt_tail_some rfl (pAlt_tail_some rfl (pAlt_tail_some rfl
      (pAlt_tail_some rfl (pAlt_tail_some rfl (pAlt_tail_some rfl
      (pAlt_tail_some rfl (pAlt_tail_some rfl (pAlt_tail_some rfl
      (pAlt_tail_some rfl (pAlt_some ?_)))))))))))))
    simp only [encApiError, pWrap, lit, List.append_assoc, pseq_assoc, pseq_pLit,
      pseq_pMap, pseq_pStr, pDone_eq, pseq_pDone, hc]
  | keyError e =>
    have hc : plainString e = true := by simpa [ApiError.wf] using h
    refine pAlt_tail_some rfl (pAlt_tail_some rfl (pAlt_tail_some rfl
      (pAlt_tail_some rfl (pAlt_tail_some rfl (pAlt_tail_some rfl
      (pAlt_tail_some rfl (pAlt_tail_some rfl (pAlt_tail_some rfl
      (pAlt_tail_some rfl (pAlt_tail_some rfl (pAlt_tail_some rfl
      (pAlt_tail_some rfl (pAlt_tail_some rfl (pAlt_some ?_))))))))))))))
    simp only [encApiError, pWrap, lit, List.append_assoc, pseq_assoc, pseq_pLit,
      pseq_pMap, pseq_pStr, pDone_eq, pseq_pDone, hc]
  | ioError e =>
    have hc : plainString e = true := by simpa [ApiError.wf] using h
    refine pAlt_tail_some rfl (pAlt_tail_some rfl (pAlt_tail_some rfl
      (pAlt_tail_some rfl (pAlt_tail_some rfl (pAlt_tail_some rfl
      (pAlt_tail_some rfl (pAlt_tail_some rfl (pAlt_tail_some rfl
      (pAlt_tail_some rfl (pAlt_tail_some rfl (pAlt_tail_some rfl
      (pAlt_tail_some rfl (pAlt_tail_some rfl (pAlt_tail_some rfl (pAlt_some ?_)))))))))))))))
    simp only [encApiError, pWrap, lit, List.append_assoc, pseq_assoc, pseq_pLit,
      pseq_pMap, pseq_pStr, pDone_eq, pseq_pDone, hc]
  | osError e =>
    have hc : plainString e = true := by simpa [ApiError.wf] using h
    refine pAlt_tail_some rfl (pAlt_tail_some rfl (pAlt_tail_some rfl
      (pAlt_tail_some rfl (pAlt_tail_some rfl (pAlt_tail_some rfl
      (pAlt_tail_some rfl (pAlt_tail_some rfl (pAlt_tail_some rfl
      (pAlt_tail_some rfl (pAlt_tail_some rfl (pAlt_tail_some rfl
      (pAlt_tail_some rfl (pAlt_tail_some rfl (pAlt_tail_some rfl
      (pAlt_tail_some rfl ?_)))))))))))))))
    simp only [encApiError, pWrap, lit, List.append_assoc, pseq_assoc, pseq_pLit,
      pseq_pMap, pseq_pStr, pDone_eq, pseq_pDone, hc]

theorem pseq_pApiError {β : Type} (e : ApiError) (f : ApiError → P β) (s : List Char)
    (h : e.wf = true) : pseq pApiError f (encApiError e ++ s) = f e s := by
  simp only [pseq, pApiError_spec e h]

theorem pMountResult_spec (m : MountResult) (h : m.wf = true) (s : List Char) :
    pMountResult (encMountResult m ++ s) = some (m, s) := by
  cases m with
  | ok => exact pAlt_some rfl
  | err e =>
    have hc : e.wf = true := by simpa [MountResult.wf] using h
    refine pAlt_tail_some rfl ?_
    simp only [encMountResult, pWrap, lit, List.append_assoc, pseq_assoc, pseq_pLit,
      pseq_pMap, pseq_pApiError, pDone_eq, pseq_pDone, hc]

theorem pCMPair_spec (x : Container × MountResult) (h1 : x.1.wf = true)
    (h2 : x.2.wf = true) (s : List Char) : pCMPair (encCMPair x ++ s) = some (x, s) := by
  obtain ⟨c, m⟩ := x
  have hm : ∀ (f : MountResult → P (Container × MountResult)) s',
      pseq pMountResult f (encMountResult m ++ s') = f m s' :=
    fun f s' => by simp only [pseq, pMountResult_spec m h2]
  simp only [encCMPair, pCMPair, lit, List.append_assoc, pseq_pLit, pseq_pContainer, hm,
    pDone_eq, pseq_pDone, h1]

theorem encCMPair_head (x : Container × MountResult) : (encCMPair x).head? = some '[' := rfl

theorem pConnect_spec (c : Connect) (s : List Char) :
    pConnect (encConnect c ++ s) = some (c, s) := by
  cases c with
  | connect version sub =>
    refine pAlt_some ?_
    simp only [encConnect, pWrap, lit, List.append_assoc, pseq_assoc, pseq_pLit,
      pseq_pVersion, pseq_pBool, pDone_eq, pseq_pDone]
  | connectAck => exact pAlt_tail_some rfl rfl

theorem pRequest_spec (q : Request) (h : q.wf = true) (s : List Char) :
    pRequest (encRequest q ++ s) = some (q, s) := by
  cases q with
  | containers => exact pAlt_some rfl
  | repositories => exact pAlt_tail_some rfl (pAlt_some rfl)
  | start c =>
    have hc : c.wf = true := by simpa [Request.wf] using h
    refine pAlt_tail_some rfl (pAlt_tail_some rfl (pAlt_some ?_))
    simp only [encRequest, pWrap, lit, List.append_assoc, pseq_assoc, pseq_pLit,
      pseq_pMap, pseq_pContainer, pDone_eq, pseq_pDone, hc]
  | stop c timeout =>
    have hc : c.wf = true := by simpa [Request.wf] using h
    refine pAlt_tail_some rfl (pAlt_tail_some rfl (pAlt_tail_some rfl (pAlt_some ?_)))
    simp only [encRequest, pWrap, lit, List.append_assoc, pseq_assoc, pseq_pLit,
      pseq_pMap, pseq_pContainer, pseq_pNat, pDone_eq, pseq_pDone, headFails_cons_append,
      isDig_rbrack, Bool.not_false, hc]
  | mount cs =>
    have hc : cs.all Container.wf = true := by simpa [Request.wf] using h
    refine pAlt_tail_some rfl (pAlt_tail_some rfl (pAlt_tail_some rfl
      (pAlt_tail_some rfl (pAlt_some ?_))))
    have hcoll : ∀ (f : List Container → P Request) s',
        pseq (pColl '[' ']' pContainer) f (collChars '[' ']' encContainer cs ++ s')
          = f cs s' := by
      intro f s'
      refine pseq_pColl '[' ']' pContainer encContainer (by decide) cs f s' ?_ ?_ ?_
      · intro a ha r
        exact pContainer_spec a (List.all_eq_true.mp hc a ha) r
      · intro a
        exact head_ne_of_head_eq (encContainer_head a) (by decide)
      · intro a
        exact ne_nil_of_head (encContainer_head a)
    simp only [encRequest, pWrap, lit, List.append_assoc, pseq_assoc, pseq_pLit,
      pseq_pMap, hcoll, pDone_eq, pseq_pDone]
  | umount c =>
    have hc : c.wf = true := by simpa [Request.wf] using h
    refine pAlt_tail_some rfl (pAlt_tail_some rfl (pAlt_tail_some rfl
      (pAlt_tail_some rfl (pAlt_tail_some rfl (pAlt_some ?_)))))
    simp only [encRequest, pWrap, lit, List.append_assoc, pseq_assoc, pseq_pLit,
      pseq_pMap, pseq_pContainer, pDone_eq, pseq_pDone, hc]
  | install repository size =>
    have hc : plainString repository = true := by simpa [Request.wf] using h
    refine pAlt_tail_some rfl (pAlt_tail_some rfl (pAlt_tail_some rfl
      (pAlt_tail_some rfl (pAlt_tail_some rfl (pAlt_tail_some rfl (pAlt_some ?_))))))
    simp only [encRequest, pWrap, lit, List.append_assoc, pseq_assoc, pseq_pLit,
      pseq_pMap, pseq_pStr, pseq_pNat, pDone_eq, pseq_pDone, headFails_cons_append,
      isDig_rbrack, Bool.not_false, hc]
  | uninstall c =>
    have hc : c.wf = true := by simpa [Request.wf] using h
    refine pAlt_tail_some rfl (pAlt_tail_some rfl (pAlt_tail_some rfl
      (pAlt_tail_some rfl (pAlt_tail_some rfl (pAlt_tail_some rfl
      (pAlt_tail_some rfl (pAlt_some ?_)))))))
    simp only [encRequest, pWrap, lit, List.append_assoc, pseq_assoc, pseq_pLit,
      pseq_pMap, pseq_pContainer, pDone_eq, pseq_pDone, hc]
  | shutdown =>
    exact pAlt_tail_some rfl (pAlt_tail_some rfl (pAlt_tail_some rfl
      (pAlt_tail_some rfl (pAlt_tail_some rfl (pAlt_tail_some rfl
      (pAlt_tail_some rfl (pAlt_tail_some rfl rfl)))))))

theorem pResponse_spec (q : Response) (h : q.wf = true) (s : List Char) :
    pResponse (encResponse q ++ s) = some (q, s) := by
  cases q with
  | containers cs =>
    have hc : cs.all ContainerData.wf = true := by simpa [Response.wf] using h
    refine pAlt_some ?_
    have hcoll : ∀ (f : List ContainerData → P Response) s',
        pseq (pColl '[' ']' pContainerData) f (collChars '[' ']' encContainerData cs ++ s')
          = f cs s' := by
      intro f s'
      refine pseq_pColl '[' ']' pContainerData encContainerData (by decide) cs f s' ?_ ?_ ?_
      · intro a ha r
        exact pContainerData_spec a (List.all_eq_true.mp hc a ha) r
      · intro a
        exact head_ne_of_head_eq (encContainerData_head a) (by decide)
      · intro a
        exact ne_nil_of_head (encContainerData_head a)
    simp only [encResponse, pWrap, lit, List.append_assoc, pseq_assoc, pseq_pLit,
      pseq_pMap, hcoll, pDone_eq, pseq_pDone]
  | repositories rs =>
    have hc : rs.all plainString = true := by simpa [Response.wf] using h
    refine pAlt_tail_some rfl (pAlt_some ?_)
    have hcoll : ∀ (f : List String → P Response) s',
        pseq (pColl '[' ']' pStr) f (collChars '[' ']' strChars rs ++ s') = f rs s' := by
      intro f s'
      refine pseq_pColl '[' ']' pStr strChars (by decide) rs f s' ?_ ?_ ?_
      · intro a ha r
        exact pStr_spec a r (List.all_eq_true.mp hc a ha)
      · intro a
        exact head_ne_of_head_eq (strChars_head a) (by decide)
      · intro a
        exact ne_nil_of_head (strChars_head a)
    simp only [encResponse, pWrap, lit, List.append_assoc, pseq_assoc, pseq_pLit,
      pseq_pMap, hcoll, pDone_eq, pseq_pDone]
  | mount ms =>
    have hc : ms.all (fun x => x.1.wf && x.2.wf) = true := by simpa [Response.wf] using h
    refine pAlt_tail_some rfl (pAlt_tail_some rfl (pAlt_some ?_))
    have hcoll : ∀ (f : List (Container × MountResult) → P Response) s',
        pseq (pColl '[' ']' pCMPair) f (collChars '[' ']' encCMPair ms ++ s') = f ms s' := by
      intro f s'
      refine pseq_pColl '[' ']' pCMPair encCMPair (by decide) ms f s' ?_ ?_ ?_
      · intro a ha r
        have := List.all_eq_true.mp hc a ha
        simp only [Bool.and_eq_true] at this
        exact pCMPair_spec a this.1 this.2 r
      · intro a
        exact head_ne_of_head_eq (encCMPair_head a) (by decide)
      · intro a
        exact ne_nil_of_head (encCMPair_head a)
    simp only [encResponse, pWrap, lit, List.append_assoc, pseq_assoc, pseq_pLit,
      pseq_pMap, hcoll, pDone_eq, pseq_pDone]
  | ok => exact pAlt_tail_some rfl (pAlt_tail_some rfl (pAlt_tail_some rfl (pAlt_some rfl)))
  | err e =>
    have hc : e.wf = true := by simpa [Response.wf] using h
    refine pAlt_tail_some rfl (pAlt_tail_some rfl (pAlt_tail_some rfl
      (pAlt_tail_some rfl ?_)))
    simp only [encResponse, pWrap, lit, List.append_assoc, pseq_assoc, pseq_pLit,
      pseq_pMap, pseq_pApiError, pDone_eq, pseq_pDone, hc]

theorem pNotification_spec (n : Notification) (h : n.wf = true) (s : List Char) :
    pNotification (encNotification n ++ s) = some (n, s) := by
  cases n with
  | started c =>
    have hc : c.wf = true := by simpa [Notification.wf] using h
    refine pAlt_some ?_
    simp only [encNotification, pWrap, lit, List.append_assoc, pseq_assoc, pseq_pLit,
      pseq_pMap, pseq_pContainer, pDone_eq, pseq_pDone, hc]
  | stopped c =>
    have hc : c.wf = true := by simpa [Notification.wf] using h
    refine pAlt_tail_some rfl (pAlt_some ?_)
    simp only [encNotification, pWrap, lit, List.append_assoc, pseq_assoc, pseq_pLit,
      pseq_pMap, pseq_pContainer, pDone_eq, pseq_pDone, hc]
  | exit c status =>
    have hc : c.wf = true := by simpa [Notification.wf] using h
    refine pAlt_tail_some rfl (pAlt_tail_some rfl (pAlt_some ?_))
    simp only [encNotification, pWrap, lit, List.append_assoc, pseq_assoc, pseq_pLit,
      pseq_pMap, pseq_pContainer, pseq_pExitStatus, pDone_eq, pseq_pDone, hc]
  | outOfMemory c =>
    have hc : c.wf = true := by simpa [Notification.wf] using h
    refine pAlt_tail_some rfl (pAlt_tail_some rfl (pAlt_tail_some rfl (pAlt_some ?_)))
    simp only [encNotification, pWrap, lit, List.append_assoc, pseq_assoc, pseq_pLit,
      pseq_pMap, pseq_pContainer, pDone_eq, pseq_pDone, hc]
  | install name version =>
    have hc : plainString name = true := by simpa [Notification.wf] using h
    refine pAlt_tail_some rfl (pAlt_tail_some rfl (pAlt_tail_some rfl
      (pAlt_tail_some rfl (pAlt_some ?_))))
    simp only [encNotification, pWrap, lit, List.append_assoc, pseq_assoc, pseq_pLit,
      pseq_pMap, pseq_pStr, pseq_pVersion, pDone_eq, pseq_pDone, hc]
  | uninstalled name version =>
    have hc : plainString name = true := by simpa [Notification.wf] using h
    refine pAlt_tail_some rfl (pAlt_tail_some rfl (pAlt_tail_some rfl
      (pAlt_tail_some rfl (pAlt_tail_some rfl (pAlt_some ?_)))))
    simp only [encNotification, pWrap, lit, List.append_assoc, pseq_assoc, pseq_pLit,
      pseq_pMap, pseq_pStr, pseq_pVersion, pDone_eq, pseq_pDone, hc]
  | shutdown =>
    exact pAlt_tail_some rfl (pAlt_tail_some rfl (pAlt_tail_some rfl
      (pAlt_tail_some rfl (pAlt_tail_some rfl (pAlt_tail_some rfl rfl)))))

theorem pPayload_spec (p : Payload) (h : p.wf = true) (s : List Char) :
    pPayload (encPayload p ++ s) = some (p, s) := by
  cases p with
  | connect c =>
    refine pAlt_some ?_
    have hcon : ∀ (f : Connect → P Payload) s',
        pseq pConnect f (encConnect c ++ s') = f c s' :=
      fun f s' => by simp only [pseq, pConnect_spec]
    simp only [encPayload, pWrap, lit, List.append_assoc, pseq_assoc, pseq_pLit,
      pseq_pMap, hcon, pDone_eq, pseq_pDone]
  | request r =>
    have hc : r.wf = true := by simpa [Payload.wf] using h
    refine pAlt_tail_some rfl (pAlt_some ?_)
    have hreq : ∀ (f : Request → P Payload) s',
        pseq pRequest f (encRequest r ++ s') = f r s' :=
      fun f s' => by simp only [pseq, pRequest_spec r hc]
    simp only [encPayload, pWrap, lit, List.append_assoc, pseq_assoc, pseq_pLit,
      pseq_pMap, hreq, pDone_eq, pseq_pDone]
  | response r =>
    have hc : r.wf = true := by simpa [Payload.wf] using h
    refine pAlt_tail_some rfl (pAlt_tail_some rfl (pAlt_some ?_))
    have hres : ∀ (f : Response → P Payload) s',
        pseq pResponse f (encResponse r ++ s') = f r s' :=
      fun f s' => by simp only [pseq, pResponse_spec r hc]
    simp only [encPayload, pWrap, lit, List.append_assoc, pseq_assoc, pseq_pLit,
      pseq_pMap, hres, pDone_eq, pseq_pDone]
  | notification n =>
    have hc : n.wf = true := by simpa [Payload.wf] using h
    refine pAlt_tail_some rfl (pAlt_tail_some rfl (pAlt_tail_some rfl ?_))
    have hnot : ∀ (f : Notification → P Payload) s',
        pseq pNotification f (encNotification n ++ s') = f n s' :=
      fun f s' => by simp only [pseq, pNotification_spec n hc]
    simp only [encPayload, pWrap, lit, List.append_assoc, pseq_assoc, pseq_pLit,
      pseq_pMap, hnot, pDone_eq, pseq_pDone]

theorem pMessage_spec (m : Message) (h : m.wf = true) (s : List Char) :
    pMessage (encMessage m ++ s) = some (m, s) := by
  obtain ⟨payload⟩ := m
  have hp : payload.wf = true := by simpa [Message.wf] using h
  have hpay : ∀ (f : Payload → P Message) s',
      pseq pPayload f (encPayload payload ++ s') = f payload s' :=
    fun f s' => by simp only [pseq, pPayload_spec payload hp]
  simp only [encMessage, pMessage, lit, List.append_assoc, pseq_pLit, hpay, pDone_eq,
    pseq_pDone]

/-! ### The encoded line contains no newline -/

theorem not_mem_append2 {a : Char} {l₁ l₂ : List Char} (h1 : a ∉ l₁) (h2 : a ∉ l₂) :
    a ∉ l₁ ++ l₂ := by
  simp only [List.mem_append, not_or]
  exact ⟨h1, h2⟩

theorem not_mem_cons2 {a c : Char} {l : List Char} (h1 : a ≠ c) (h2 : a ∉ l) :
    a ∉ c :: l := by
  simp only [List.mem_cons, not_or]
  exact ⟨h1, h2⟩

theorem plainChar_ne_nl {c : Char} (h : plainChar c = true) : c ≠ '\n' := by
  simp only [plainChar, Bool.and_eq_true, decide_eq_true_eq] at h
  exact h.1.2

theorem noNL_strChars (st : String) (h : plainString st = true) : '\n' ∉ strChars st := by
  refine not_mem_cons2 (by decide) (not_mem_append2 ?_ (by decide))
  intro hm
  exact absurd rfl (plainChar_ne_nl (List.all_eq_true.mp h _ hm)).symm

theorem noNL_natChars (n : Nat) : '\n' ∉ natChars n := by
  intro hm
  have := List.all_eq_true.mp (natChars_all_dig n) _ hm
  exact absurd this (by decide)

theorem noNL_intChars (i : Int) : '\n' ∉ intChars i := by
  unfold intChars
  by_cases h : i < 0
  · simp only [if_pos h]
    exact not_mem_cons2 (by decide) (noNL_natChars _)
  · simp only [if_neg h]
    exact noNL_natChars _

theorem noNL_boolChars (b : Bool) : '\n' ∉ boolChars b := by
  cases b <;> decide

theorem noNL_encVersion (v : Version) : '\n' ∉ encVersion v := by
  refine not_mem_append2 (not_mem_append2 (not_mem_append2 (not_mem_append2
    (not_mem_append2 (not_mem_append2 (by decide) (noNL_natChars _)) (by decide))
    (noNL_natChars _)) (by decide)) (noNL_natChars _)) (by decide)

theorem noNL_optChars {α : Type} (enc : α → List Char) (o : Option α)
    (h : ∀ a, o = some a → '\n' ∉ enc a) : '\n' ∉ optChars enc o := by
  cases o with
  | none =>
    show '\n' ∉ ['n', 'u', 'l', 'l']
    decide
  | some a => exact h a rfl

theorem noNL_sepBy {α : Type} (enc : α → List Char) (xs : List α)
    (h : ∀ a ∈ xs, '\n' ∉ enc a) : '\n' ∉ sepBy enc xs := by
  induction xs with
  | nil => simp [sepBy]
  | cons a t ih =>
    cases t with
    | nil => simpa [sepBy] using h a (List.mem_cons_self a [])
    | cons b t' =>
      show '\n' ∉ enc a ++ ',' :: sepBy enc (b :: t')
      refine not_mem_append2 (h a (List.mem_cons_self _ _)) (not_mem_cons2 (by decide) ?_)
      exact ih (fun x hx => h x (List.mem_cons_of_mem a hx))

theorem noNL_collChars {α : Type} (opn cls : Char) (enc : α → List Char) (xs : List α)
    (hopn : opn ≠ '\n') (hcls : cls ≠ '\n') (h : ∀ a ∈ xs, '\n' ∉ enc a) :
    '\n' ∉ collChars opn cls enc xs := by
  refine not_mem_cons2 (fun he => hopn he.symm) (not_mem_append2 (noNL_sepBy enc xs h) ?_)
  simp only [List.mem_singleton]
  exact fun he => hcls he.symm

theorem noNL_encContainer (c : Container) (h : c.wf = true) : '\n' ∉ encContainer c := by
  have hname : plainString c.name = true := by simpa [Container.wf] using h
  refine not_mem_append2 (not_mem_append2 (not_mem_append2 (not_mem_append2
    (by decide) (noNL_strChars _ hname)) (by decide)) (noNL_encVersion _)) (by decide)

theorem noNL_encMount (m : Mount) (h : m.wf = true) : '\n' ∉ encMount m := by
  cases m with
  | bind host =>
    have hh : plainString host = true := by simpa [Mount.wf] using h
    exact not_mem_append2 (not_mem_append2 (by decide) (noNL_strChars _ hh)) (by decide)
  | tmpfs size =>
    exact not_mem_append2 (not_mem_append2 (by decide) (noNL_natChars _)) (by decide)
  | persist => decide
  | resource name version dir =>
    have hh : plainString name = true ∧ plainString dir = true := by
      simpa [Mount.wf] using h
    refine not_mem_append2 (not_mem_append2 (not_mem_append2 (not_mem_append2
      (not_mem_append2 (not_mem_append2 (by decide) (noNL_strChars _ hh.1)) (by decide))
      (noNL_encVersion _)) (by decide)) (noNL_strChars _ hh.2)) (by decide)

theorem noNL_encEnvEntry (kv : String × String) (h1 : plainString kv.1 = true)
    (h2 : plainString kv.2 = true) : '\n' ∉ encEnvEntry kv := by
  exact not_mem_append2 (not_mem_append2 (noNL_strChars _ h1) (by decide))
    (noNL_strChars _ h2)

theorem noNL_encMountEntry (kv : String × Mount) (h1 : plainString kv.1 = true)
    (h2 : kv.2.wf = true) : '\n' ∉ encMountEntry kv := by
  exact not_mem_append2 (not_mem_append2 (noNL_strChars _ h1) (by decide))
    (noNL_encMount _ h2)

theorem noNL_encCGroupLimits (g : CGroupLimits) : '\n' ∉ encCGroupLimits g := by
  refine not_mem_append2 (not_mem_append2 (not_mem_append2 (not_mem_append2
    (by decide) (noNL_optChars _ _ (fun a _ => noNL_natChars a))) (by decide))
    (noNL_optChars _ _ (fun a _ => noNL_natChars a))) (by decide)

theorem noNL_encManifest (m : Manifest) (h : m.wf = true) : '\n' ∉ encManifest m := by
  simp only [Manifest.wf, Bool.and_eq_true] at h
  obtain ⟨⟨⟨⟨⟨⟨h1, h2⟩, h3⟩, h4⟩, h5⟩, h6⟩, h7⟩ := h
  show '\n' ∉ encManifest m
  simp only [encManifest, List.append_assoc]
  refine not_mem_append2 (by decide) ?_
  refine not_mem_append2 (noNL_strChars _ h1) ?_
  refine not_mem_append2 (by decide) ?_
  refine not_mem_append2 (noNL_encVersion _) ?_
  refine not_mem_append2 (by decide) ?_
  refine not_mem_append2 (noNL_optChars _ _
    (fun a ha => noNL_strChars a (by rw [ha] at h2; exact h2))) ?_
  refine not_mem_append2 (by decide) ?_
  refine not_mem_append2 (noNL_optChars _ _
    (fun l hl => noNL_collChars '[' ']' strChars l (by decide) (by decide)
      (fun a ha => noNL_strChars a
        (List.all_eq_true.mp (by rw [hl] at h3; exact h3) a ha)))) ?_
  refine not_mem_append2 (by decide) ?_
  refine not_mem_append2 (noNL_optChars _ _
    (fun l hl => noNL_collChars LB RB encEnvEntry l (by decide) (by decide)
      (fun a ha => by
        have hx := List.all_eq_true.mp (by rw [hl] at h4; exact h4) a ha
        simp only [Bool.and_eq_true] at hx
        exact noNL_encEnvEntry a hx.1 hx.2))) ?_
  refine not_mem_append2 (by decide) ?_
  refine not_mem_append2 (noNL_optChars _ _ (fun a _ => noNL_natChars a)) ?_
  refine not_mem_append2 (by decide) ?_
  refine not_mem_append2 (noNL_optChars _ _ (fun a _ => noNL_natChars a)) ?_
  refine not_mem_append2 (by decide) ?_
  refine not_mem_append2 (noNL_optChars _ _
    (fun l hl => noNL_collChars '[' ']' strChars l (by decide) (by decide)
      (fun a ha => noNL_strChars a
        (List.all_eq_true.mp (by rw [hl] at h5; exact h5) a ha)))) ?_
  refine not_mem_append2 (by decide) ?_
  refine not_mem_append2 (noNL_collChars LB RB encMountEntry m.mounts (by decide) (by decide)
    (fun a ha => by
      have hx := List.all_eq_true.mp h6 a ha
      simp only [Bool.and_eq_true] at hx
      exact noNL_encMountEntry a hx.1 hx.2)) ?_
  refine not_mem_append2 (by decide) ?_
  refine not_mem_append2 (noNL_optChars _ _
    (fun l hl => noNL_collChars '[' ']' strChars l (by decide) (by decide)
      (fun a ha => noNL_strChars a
        (List.all_eq_true.mp (by rw [hl] at h7; exact h7) a ha)))) ?_
  refine not_mem_append2 (by decide) ?_
  refine not_mem_append2 (noNL_optChars _ _ (fun g _ => noNL_encCGroupLimits g)) ?_
  decide

theorem noNL_encExitStatus (e : ExitStatus) : '\n' ∉ encExitStatus e := by
  cases e with
  | exit code =>
    exact not_mem_append2 (not_mem_append2 (by decide) (noNL_intChars _)) (by decide)
  | signaled sig =>
    exact not_mem_append2 (not_mem_append2 (by decide) (noNL_natChars _)) (by decide)

theorem noNL_encMemory (m : Memory) : '\n' ∉ encMemory m := by
  simp only [encMemory, List.append_assoc]
  refine not_mem_append2 (by decide) ?_
  refine not_mem_append2 (noNL_natChars _) ?_
  refine not_mem_append2 (by decide) ?_
  refine not_mem_append2 (noNL_natChars _) ?_
  refine not_mem_append2 (by decide) ?_
  refine not_mem_append2 (noNL_natChars _) ?_
  refine not_mem_append2 (by decide) ?_
  refine not_mem_append2 (noNL_natChars _) ?_
  refine not_mem_append2 (by decide) ?_
  refine not_mem_append2 (noNL_natChars _) ?_
  decide

theorem noNL_encResources (r : Resources) : '\n' ∉ encResources r := by
  simp only [encResources, List.append_assoc]
  refine not_mem_append2 (by decide) ?_
  refine not_mem_append2 (noNL_optChars _ _ (fun a _ => noNL_encMemory a)) ?_
  decide

theorem noNL_encProcessInfo (p : ProcessInfo) : '\n' ∉ encProcessInfo p := by
  simp only [encProcessInfo, List.append_assoc]
  refine not_mem_append2 (by decide) ?_
  refine not_mem_append2 (noNL_natChars _) ?_
  refine not_mem_append2 (by decide) ?_
  refine not_mem_append2 (noNL_natChars _) ?_
  refine not_mem_append2 (by decide) ?_
  refine not_mem_append2 (noNL_encResources _) ?_
  decide

theorem noNL_encContainerData (d : ContainerData) (h : d.wf = true) :
    '\n' ∉ encContainerData d := by
  simp only [ContainerData.wf, Bool.and_eq_true] at h
  obtain ⟨⟨h1, h2⟩, h3⟩ := h
  show '\n' ∉ encContainerData d
  simp only [encContainerData, List.append_assoc]
  refine not_mem_append2 (by decide) ?_
  refine not_mem_append2 (noNL_encContainer _ h1) ?_
  refine not_mem_append2 (by decide) ?_
  refine not_mem_append2 (noNL_strChars _ h2) ?_
  refine not_mem_append2 (by decide) ?_
  refine not_mem_append2 (noNL_encManifest _ h3) ?_
  refine not_mem_append2 (by decide) ?_
  refine not_mem_append2 (noNL_optChars _ _ (fun a _ => noNL_encProcessInfo a)) ?_
  refine not_mem_append2 (by decide) ?_
  refine not_mem_append2 (noNL_boolChars _) ?_
  decide

theorem noNL_encApiError (e : ApiError) (h : e.wf = true) : '\n' ∉ encApiError e := by
  cases e with
  | configuration cause =>
    have hc : plainString cause = true := by simpa [ApiError.wf] using h
    exact not_mem_append2 (not_mem_append2 (by decide) (noNL_strChars _ hc)) (by decide)
  | invalidContainer c =>
    have hc : c.wf = true := by simpa [ApiError.wf] using h
    exact not_mem_append2 (not_mem_append2 (by decide) (noNL_encContainer _ hc)) (by decide)
  | umountBusy c =>
    have hc : c.wf = true := by simpa [ApiError.wf] using h
    exact not_mem_append2 (not_mem_append2 (by decide) (noNL_encContainer _ hc)) (by decide)
  | startContainerStarted c =>
    have hc : c.wf = true := by simpa [ApiError.wf] using h
    exact not_mem_append2 (not_mem_append2 (by decide) (noNL_encContainer _ hc)) (by decide)
  | startContainerResource c =>
    have hc : c.wf = true := by simpa [ApiError.wf] using h
    exact not_mem_append2 (not_mem_append2 (by decide) (noNL_encContainer _ hc)) (by decide)
  | startContainerMissingResource c r =>
    have hc : c.wf = true ∧ r.wf = true := by simpa [ApiError.wf] using h
    simp only [encApiError, List.append_assoc]
    refine not_mem_append2 (by decide) ?_
    refine not_mem_append2 (noNL_encContainer _ hc.1) ?_
    refine not_mem_append2 (by decide) ?_
    refine not_mem_append2 (noNL_encContainer _ hc.2) ?_
    decide
  | startContainerFailed c reason =>
    have hc : c.wf = true ∧ plainString reason = true := by simpa [ApiError.wf] using h
    simp only [encApiError, List.append_assoc]
    refine not_mem_append2 (by decide) ?_
    refine not_mem_append2 (noNL_encContainer _ hc.1) ?_
    refine not_mem_append2 (by decide) ?_
    refine not_mem_append2 (noNL_strChars _ hc.2) ?_
    decide
  | stopContainerNotStarted c =>
    have hc : c.wf = true := by simpa [ApiError.wf] using h
    exact not_mem_append2 (not_mem_append2 (by decide) (noNL_encContainer _ hc)) (by decide)
  | invalidRepository r =>
    have hc : plainString r = true := by simpa [ApiError.wf] using h
    exact not_mem_append2 (not_mem_append2 (by decide) (noNL_strChars _ hc)) (by decide)
  | installDuplicate c =>
    have hc : c.wf = true := by simpa [ApiError.wf] using h
    exact not_mem_append2 (not_mem_append2 (by decide) (noNL_encContainer _ hc)) (by decide)
  | npkError cause error =>
    have hc : plainString cause = true ∧ plainString error = true := by
      simpa [ApiError.wf] using h
    simp only [encApiError, List.append_assoc]
    refine not_mem_append2 (by decide) ?_
    refine not_mem_append2 (noNL_strChars _ hc.1) ?_
    refine not_mem_append2 (by decide) ?_
    refine not_mem_append2 (noNL_strChars _ hc.2) ?_
    decide
  | consoleError e =>
    have hc : plainString e = true := by simpa [ApiError.wf] using h
    exact not_mem_append2 (not_mem_append2 (by decide) (noNL_strChars _ hc)) (by decide)
  | cgroupsError e =>
    have hc : plainString e = true := by simpa [ApiError.wf] using h
    exact not_mem_append2 (not_mem_append2 (by decide) (noNL_strChars _ hc)) (by decide)
  | mountError e =>
    have hc : plainString e = true := by simpa [ApiError.wf] using h
    exact not_mem_append2 (not_mem_append2 (by decide) (noNL_strChars _ hc)) (by decide)
  | keyError e =>
    have hc : plainString e = true := by simpa [ApiError.wf] using h
    exact not_mem_append2 (not_mem_append2 (by decide) (noNL_strChars _ hc)) (by decide)
  | ioError e =>
    have hc : plainString e = true := by simpa [ApiError.wf] using h
    exact not_mem_append2 (not_mem_append2 (by decide) (noNL_strChars _ hc)) (by decide)
  | osError e =>
    have hc : plainString e = true := by simpa [ApiError.wf] using h
    exact not_mem_append2 (not_mem_append2 (by decide) (noNL_strChars _ hc)) (by decide)

theorem noNL_encMountResult (m : MountResult) (h : m.wf = true) :
    '\n' ∉ encMountResult m := by
  cases m with
  | ok => decide
  | err e =>
    have hc : e.wf = true := by simpa [MountResult.wf] using h
    exact not_mem_append2 (not_mem_append2 (by decide) (noNL_encApiError _ hc)) (by decide)

theorem noNL_encCMPair (x : Container × MountResult) (h1 : x.1.wf = true)
    (h2 : x.2.wf = true) : '\n' ∉ encCMPair x := by
  simp only [encCMPair, List.append_assoc]
  refine not_mem_append2 (by decide) ?_
  refine not_mem_append2 (noNL_encContainer _ h1) ?_
  refine not_mem_append2 (by decide) ?_
  refine not_mem_append2 (noNL_encMountResult _ h2) ?_
  decide

theorem noNL_encConnect (c : Connect) : '\n' ∉ encConnect c := by
  cases c with
  | connect version sub =>
    simp only [encConnect, List.append_assoc]
    refine not_mem_append2 (by decide) ?_
    refine not_mem_append2 (noNL_encVersion _) ?_
    refine not_mem_append2 (by decide) ?_
    refine not_mem_append2 (noNL_boolChars _) ?_
    decide
  | connectAck => decide

theorem noNL_encRequest (q : Request) (h : q.wf = true) : '\n' ∉ encRequest q := by
  cases q with
  | containers => decide
  | repositories => decide
  | start c =>
    have hc : c.wf = true := by simpa [Request.wf] using h
    exact not_mem_append2 (not_mem_append2 (by decide) (noNL_encContainer _ hc)) (by decide)
  | stop c timeout =>
    have hc : c.wf = true := by simpa [Request.wf] using h
    simp only [encRequest, List.append_assoc]
    refine not_mem_append2 (by decide) ?_
    refine not_mem_append2 (noNL_encContainer _ hc) ?_
    refine not_mem_append2 (by decide) ?_
    refine not_mem_append2 (noNL_natChars _) ?_
    decide
  | mount cs =>
    have hc : cs.all Container.wf = true := by simpa [Request.wf] using h
    simp only [encRequest, List.append_assoc]
    refine not_mem_append2 (by decide) ?_
    refine not_mem_append2 (noNL_collChars '[' ']' encContainer cs (by decide) (by decide)
      (fun a ha => noNL_encContainer a (List.all_eq_true.mp hc a ha))) ?_
    decide
  | umount c =>
    have hc : c.wf = true := by simpa [Request.wf] using h
    exact not_mem_append2 (not_mem_append2 (by decide) (noNL_encContainer _ hc)) (by decide)
  | install repository size =>
    have hc : plainString repository = true := by simpa [Request.wf] using h
    simp only [encRequest, List.append_assoc]
    refine not_mem_append2 (by decide) ?_
    refine not_mem_append2 (noNL_strChars _ hc) ?_
    refine not_mem_append2 (by decide) ?_
    refine not_mem_append2 (noNL_natChars _) ?_
    decide
  | uninstall c =>
    have hc : c.wf = true := by simpa [Request.wf] using h
    exact not_mem_append2 (not_mem_append2 (by decide) (noNL_encContainer _ hc)) (by decide)
  | shutdown => decide

theorem noNL_encResponse (q : Response) (h : q.wf = true) : '\n' ∉ encResponse q := by
  cases q with
  | containers cs =>
    have hc : cs.all ContainerData.wf = true := by simpa [Response.wf] using h
    simp only [encResponse, List.append_assoc]
    refine not_mem_append2 (by decide) ?_
    refine not_mem_append2 (noNL_collChars '[' ']' encContainerData cs (by decide) (by decide)
      (fun a ha => noNL_encContainerData a (List.all_eq_true.mp hc a ha))) ?_
    decide
  | repositories rs =>
    have hc : rs.all plainString = true := by simpa [Response.wf] using h
    simp only [encResponse, List.append_assoc]
    refine not_mem_append2 (by decide) ?_
    refine not_mem_append2 (noNL_collChars '[' ']' strChars rs (by decide) (by decide)
      (fun a ha => noNL_strChars a (List.all_eq_true.mp hc a ha))) ?_
    decide
  | mount ms =>
    have hc : ms.all (fun x => x.1.wf && x.2.wf) = true := by simpa [Response.wf] using h
    simp only [encResponse, List.append_assoc]
    refine not_mem_append2 (by decide) ?_
    refine not_mem_append2 (noNL_collChars '[' ']' encCMPair ms (by decide) (by decide)
      (fun a ha => by
        have hx := List.all_eq_true.mp hc a ha
        simp only [Bool.and_eq_true] at hx
        exact noNL_encCMPair a hx.1 hx.2)) ?_
    decide
  | ok => decide
  | err e =>
    have hc : e.wf = true := by simpa [Response.wf] using h
    exact not_mem_append2 (not_mem_append2 (by decide) (noNL_encApiError _ hc)) (by decide)

theorem noNL_encNotification (n : Notification) (h : n.wf = true) :
    '\n' ∉ encNotification n := by
  cases n with
  | started c =>
    have hc : c.wf = true := by simpa [Notification.wf] using h
    exact not_mem_append2 (not_mem_append2 (by decide) (noNL_encContainer _ hc)) (by decide)
  | stopped c =>
    have hc : c.wf = true := by simpa [Notification.wf] using h
    exact not_mem_append2 (not_mem_append2 (by decide) (noNL_encContainer _ hc)) (by decide)
  | exit c status =>
    have hc : c.wf = true := by simpa [Notification.wf] using h
    simp only [encNotification, List.append_assoc]
    refine not_mem_append2 (by decide) ?_
    refine not_mem_append2 (noNL_encContainer _ hc) ?_
    refine not_mem_append2 (by decide) ?_
    refine not_mem_append2 (noNL_encExitStatus _) ?_
    decide
  | outOfMemory c =>
    have hc : c.wf = true := by simpa [Notification.wf] using h
    exact not_mem_append2 (not_mem_append2 (by decide) (noNL_encContainer _ hc)) (by decide)
  | install name version =>
    have hc : plainString name = true := by simpa [Notification.wf] using h
    simp only [encNotification, List.append_assoc]
    refine not_mem_append2 (by decide) ?_
    refine not_mem_append2 (noNL_strChars _ hc) ?_
    refine not_mem_append2 (by decide) ?_
    refine not_mem_append2 (noNL_encVersion _) ?_
    decide
  | uninstalled name version =>
    have hc : plainString name = true := by simpa [Notification.wf] using h
    simp only [encNotification, List.append_assoc]
    refine not_mem_append2 (by decide) ?_
    refine not_mem_append2 (noNL_strChars _ hc) ?_
    refine not_mem_append2 (by decide) ?_
    refine not_mem_append2 (noNL_encVersion _) ?_
    decide
  | shutdown => decide

theorem noNL_encPayload (p : Payload) (h : p.wf = true) : '\n' ∉ encPayload p := by
  cases p with
  | connect c =>
    exact not_mem_append2 (not_mem_append2 (by decide) (noNL_encConnect _)) (by decide)
  | request r =>
    have hc : r.wf = true := by simpa [Payload.wf] using h
    exact not_mem_append2 (not_mem_append2 (by decide) (noNL_encRequest _ hc)) (by decide)
  | response r =>
    have hc : r.wf = true := by simpa [Payload.wf] using h
    exact not_mem_append2 (not_mem_append2 (by decide) (noNL_encResponse _ hc)) (by decide)
  | notification n =>
    have hc : n.wf = true := by simpa [Payload.wf] using h
    exact not_mem_append2 (not_mem_append2 (by decide) (noNL_encNotification _ hc)) (by decide)

theorem noNL_encMessage (m : Message) (h : m.wf = true) : '\n' ∉ encMessage m := by
  exact not_mem_append2 (not_mem_append2 (by decide) (noNL_encPayload _ h)) (by decide)

/-! ### Line framing lemmas -/

theorem findLine_append (l r : List Char) (h : '\n' ∉ l) :
    findLine (l ++ '\n' :: r) = some (l, r) := by
  induction l with
  | nil => simp [findLine]
  | cons c t ih =>
    simp only [List.mem_cons, not_or] at h
    have hc : ¬c = '\n' := fun he => h.1 he.symm
    show findLine (c :: (t ++ '\n' :: r)) = some (c :: t, r)
    simp only [findLine, if_neg hc, ih h.2, Option.map]

theorem getLast_concat_ne {l : List Char} {a b : Char} (hne : a ≠ b) :
    (l ++ [a]).getLast? ≠ some b := by
  rw [List.getLast?_concat]
  intro he
  exact hne (Option.some.inj he)

theorem stripCR_encMessage (m : Message) : stripCR (encMessage m) = encMessage m := by
  unfold stripCR
  rw [if_neg]
  show (lit "\x7b\"payload\":" ++ encPayload m.payload ++ [RB]).getLast? ≠ some '\r'
  rw [List.append_assoc]
  rw [show lit "\x7b\"payload\":" ++ (encPayload m.payload ++ [RB])
      = (lit "\x7b\"payload\":" ++ encPayload m.payload) ++ [RB] from
    (List.append_assoc _ _ _).symm]
  exact getLast_concat_ne (by decide)

/-! ### Container map lemmas -/

theorem lookup_map_replace (m : Containers) (c : Container) (mc : MountedContainer) :
    Containers.lookup (m.map (fun p => if p.1 = c then (c, mc) else p)) c
      = if (m.find? (fun p => p.1 = c)).isSome then some mc else none := by
  induction m with
  | nil => rfl
  | cons p t ih =>
    simp only [List.map_cons]
    by_cases hp : p.1 = c
    · rw [if_pos hp]
      unfold Containers.lookup
      rw [List.find?_cons_of_pos _ (by simp),
          List.find?_cons_of_pos _ (by simp only [decide_eq_true_eq]; exact hp)]
      simp
    · rw [if_neg hp]
      unfold Containers.lookup at ih ⊢
      rw [List.find?_cons_of_neg _ (by simp only [decide_eq_true_eq]; exact hp),
          List.find?_cons_of_neg _ (by simp only [decide_eq_true_eq]; exact hp)]
      exact ih

theorem lookup_map_replace_other (m : Containers) (c c' : Container) (mc : MountedContainer)
    (h : c' ≠ c) :
    Containers.lookup (m.map (fun p => if p.1 = c then (c, mc) else p)) c'
      = m.lookup c' := by
  induction m with
  | nil => rfl
  | cons p t ih =>
    simp only [List.map_cons]
    by_cases hp : p.1 = c
    · rw [if_pos hp]
      unfold Containers.lookup at ih ⊢
      rw [List.find?_cons_of_neg _ (by simp only [decide_eq_true_eq]; exact Ne.symm h),
          List.find?_cons_of_neg _ (by simp only [decide_eq_true_eq]; exact fun he => h (by rw [← hp, he]))]
      exact ih
    · rw [if_neg hp]
      unfold Containers.lookup at ih ⊢
      by_cases hq : p.1 = c'
      · rw [List.find?_cons_of_pos _ (by simp only [decide_eq_true_eq]; exact hq),
            List.find?_cons_of_pos _ (by simp only [decide_eq_true_eq]; exact hq)]
      · rw [List.find?_cons_of_neg _ (by simp only [decide_eq_true_eq]; exact hq),
            List.find?_cons_of_neg _ (by simp only [decide_eq_true_eq]; exact hq)]
        exact ih

theorem lookup_append_single (m : Containers) (c : Container) (mc : MountedContainer)
    (h : m.find? (fun p => p.1 = c) = none) :
    Containers.lookup (m ++ [(c, mc)]) c = some mc := by
  induction m with
  | nil =>
    show Containers.lookup [(c, mc)] c = some mc
    unfold Containers.lookup
    rw [List.find?_cons_of_pos _ (by simp)]
    rfl
  | cons p t ih =>
    by_cases hp : p.1 = c
    · rw [List.find?_cons_of_pos _ (by simp only [decide_eq_true_eq]; exact hp)] at h
      cases h
    · rw [List.find?_cons_of_neg _ (by simp only [decide_eq_true_eq]; exact hp)] at h
      show Containers.lookup (p :: (t ++ [(c, mc)])) c = some mc
      unfold Containers.lookup
      rw [List.find?_cons_of_neg _ (by simp only [decide_eq_true_eq]; exact hp)]
      exact ih h

theorem lookup_append_single_other (m : Containers) (c c' : Container)
    (mc : MountedContainer) (h : c' ≠ c) :
    Containers.lookup (m ++ [(c, mc)]) c' = m.lookup c' := by
  induction m with
  | nil =>
    show Containers.lookup [(c, mc)] c' = Containers.lookup [] c'
    unfold Containers.lookup
    rw [List.find?_cons_of_neg _ (by simp only [decide_eq_true_eq]; exact Ne.symm h)]
  | cons p t ih =>
    show Containers.lookup (p :: (t ++ [(c, mc)])) c' = Containers.lookup (p :: t) c'
    unfold Containers.lookup at ih ⊢
    by_cases hq : p.1 = c'
    · rw [List.find?_cons_of_pos _ (by simp only [decide_eq_true_eq]; exact hq),
          List.find?_cons_of_pos _ (by simp only [decide_eq_true_eq]; exact hq)]
    · rw [List.find?_cons_of_neg _ (by simp only [decide_eq_true_eq]; exact hq),
          List.find?_cons_of_neg _ (by simp only [decide_eq_true_eq]; exact hq)]
      exact ih

theorem lookup_insert_self (m : Containers) (c : Container) (mc : MountedContainer) :
    (m.insert c mc).lookup c = some mc := by
  unfold Containers.insert
  by_cases h : (m.find? (fun p => p.1 = c)).isSome
  · rw [if_pos h, lookup_map_replace, if_pos h]
  · rw [if_neg h]
    exact lookup_append_single m c mc (Option.not_isSome_iff_eq_none.mp h)

theorem lookup_insert_other (m : Containers) (c c' : Container) (mc : MountedContainer)
    (h : c' ≠ c) : (m.insert c mc).lookup c' = m.lookup c' := by
  unfold Containers.insert
  by_cases hf : (m.find? (fun p => p.1 = c)).isSome
  · rw [if_pos hf]
    exact lookup_map_replace_other m c c' mc h
  · rw [if_neg hf]
    exact lookup_append_single_other m c c' mc h

/-! ### Lemmas on the mount-result fold of `State::start` -/

theorem foldl_minsert_not_mem (c : Container) :
    ∀ (l : List (Container × Except Error MountedContainer)) (m0 : Containers),
      (∀ p ∈ l, p.1 ≠ c) →
      Containers.lookup (l.foldl minsertStep m0) c = m0.lookup c := by
  intro l
  induction l with
  | nil => intro m0 _; rfl
  | cons p t ih =>
    intro m0 hc
    show Containers.lookup (t.foldl minsertStep (minsertStep m0 p)) c = m0.lookup c
    rw [ih _ (fun q hq => hc q (List.mem_cons_of_mem p hq))]
    unfold minsertStep
    cases hp : p.2 with
    | ok mc =>
      exact lookup_insert_other m0 p.1 c mc (fun he => hc p (List.mem_cons_self p t) he.symm)
    | error e => rfl

theorem foldl_minsert_lookup (env : Env) (st : State) (c : Container) (mc : MountedContainer)
    (hmc : mountOne env st c = .ok mc) :
    ∀ (nm : List Container) (m0 : Containers), c ∈ nm →
      Containers.lookup
        ((nm.map (fun m => (m, mountOne env st m))).foldl minsertStep m0) c = some mc := by
  intro nm
  induction nm with
  | nil => intro _ h; exact absurd h (List.not_mem_nil c)
  | cons a t ih =>
    intro m0 hmem
    show Containers.lookup ((t.map (fun m => (m, mountOne env st m))).foldl minsertStep
        (minsertStep m0 (a, mountOne env st a))) c = some mc
    by_cases hct : c ∈ t
    · exact ih _ hct
    · have hac : a = c := by
        rcases List.mem_cons.mp hmem with h | h
        · exact h.symm
        · exact absurd h hct
      subst hac
      rw [foldl_minsert_not_mem a _ _ (fun q hq => by
        rcases List.mem_map.mp hq with ⟨x, hx, rfl⟩
        exact fun he => hct (he ▸ hx))]
      show Containers.lookup (minsertStep m0 (a, mountOne env st a)) a = some mc
      unfold minsertStep
      rw [hmc]
      exact lookup_insert_self m0 a mc

theorem foldl_minsert_filter (l : List (Container × Except Error MountedContainer)) :
    ∀ m0 : Containers,
      (l.filter (fun p => p.2.isOk)).foldl minsertStep m0 = l.foldl minsertStep m0 := by
  induction l with
  | nil => intro m0; rfl
  | cons p t ih =>
    intro m0
    cases hp : p.2 with
    | ok mc =>
      rw [List.filter_cons_of_pos (by rw [hp]; rfl)]
      show (t.filter (fun p => p.2.isOk)).foldl minsertStep (minsertStep m0 p)
          = t.foldl minsertStep (minsertStep m0 p)
      exact ih _
    | error e =>
      rw [List.filter_cons_of_neg (by rw [hp]; exact Bool.false_ne_true)]
      show (t.filter (fun p => p.2.isOk)).foldl minsertStep m0
          = t.foldl minsertStep (minsertStep m0 p)
      have hid : minsertStep m0 p = m0 := by
        unfold minsertStep
        rw [hp]
      rw [hid]
      exact ih m0

theorem mountPhase_snd (env : Env) (st : State) (nm : List Container)
    (hn : nm.find? (fun m => (st.npk m).isNone) = none) :
    (mountPhase env st nm).2
      = { st with containers :=
          (nm.map (fun m => (m, mountOne env st m))).foldl minsertStep st.containers } := by
  simp only [mountPhase, hn]
  rw [foldl_minsert_filter]
  rcases hgl : ((nm.map (fun m => (m, mountOne env st m))).filter
      (fun p => !p.2.isOk)).getLast? with _ | ⟨m, r⟩
  · rw [hgl]
  · cases r with
    | ok u => rw [hgl]
    | error e => rw [hgl]

theorem mountPhase_fst_fail (env : Env) (st : State) (nm : List Container)
    (hn : nm.find? (fun m => (st.npk m).isNone) = none)
    (m' : Container) (e : Error)
    (hl : ((nm.map (fun m => (m, mountOne env st m))).filter
        (fun p => !p.2.isOk)).getLast? = some (m', .error e)) :
    (mountPhase env st nm).1 = some e := by
  simp only [mountPhase, hn]
  rw [hl]

theorem start_mount_fail (env : Env) (st : State) (c : Container) (npk : Npk)
    (key : Option Unit) (h1 : st.npk c = some (npk, key))
    (h2 : st.containers.lookup c = none)
    (h3 : missingResource st npk = none)
    (e : Error) (hf : (mountPhase env st (needMountList st c npk)).1 = some e) :
    State.start env st c = (.err e, (mountPhase env st (needMountList st c npk)).2, []) := by
  unfold State.start
  rw [h1]
  simp only [h2, h3]
  rcases hp : mountPhase env st (needMountList st c npk) with ⟨f, s⟩
  rw [hp] at hf
  have hf' : f = some e := hf
  subst hf'
  rfl

theorem needMount_find_none (st : State) (c : Container) (npk : Npk) (key : Option Unit)
    (h1 : st.npk c = some (npk, key)) (h2 : st.containers.lookup c = none)
    (h3 : missingResource st npk = none) :
    (needMountList st c npk).find? (fun m => (st.npk m).isNone) = none := by
  rw [List.find?_eq_none]
  intro x hx
  unfold needMountList at hx
  rcases List.mem_append.mp (List.mem_dedup.mp hx) with h | h
  · simp only [h2, Option.isNone_none, if_true, List.mem_singleton] at h
    subst h
    simp [h1]
  · unfold missingResource at h3
    exact List.find?_eq_none.mp h3 x h

/-! ### Lemmas on the await tail of `IslandProcess::stop` -/

theorem stopFinish_fst (env : StopEnv) (io0 io1 : Bool) (kills : List (Int × Nat)) :
    (stopFinish env io0 io1 kills).1 = kills := by
  unfold stopFinish
  split
  · rfl
  · split
    · rfl
    · split
      · rfl
      · rfl

theorem stopFinish_err (env : StopEnv) (io0 io1 : Bool) (kills : List (Int × Nat)) (e : Error)
    (hw : env.waitResult = .error e) : (stopFinish env io0 io1 kills).2 = .err e := by
  unfold stopFinish
  rw [hw]

theorem stopFinish_ok (env : StopEnv) (io0 io1 : Bool) (kills : List (Int × Nat))
    (s : ExitStatus) (hw : env.waitResult = .ok s)
    (h0 : io0 = true → env.ioStop0 = .ok ())
    (h1 : io1 = true → env.ioStop1 = .ok ()) :
    (stopFinish env io0 io1 kills).2 = .ok (.stopped, s) := by
  unfold stopFinish
  rw [hw]
  have e0 : (if io0 then env.ioStop0 else Except.ok ()) = Except.ok () := by
    cases io0
    · rfl
    · exact h0 rfl
  have e1 : (if io1 then env.ioStop1 else Except.ok ()) = Except.ok () := by
    cases io1
    · rfl
    · exact h1 rfl
  rw [e0, e1]

theorem stopFinish_stopped (env : StopEnv) (io0 io1 : Bool) (kills : List (Int × Nat))
    (q : IslandProcess) (s : ExitStatus)
    (h : (stopFinish env io0 io1 kills).2 = .ok (q, s)) : q = .stopped := by
  unfold stopFinish at h
  split at h
  · exact RtResult.noConfusion h
  · split at h
    · exact RtResult.noConfusion h
    · split at h
      · exact RtResult.noConfusion h
      · injection h with h2
        exact (congrArg Prod.fst h2).symm

theorem codecDecode_line (line rest : List Char) (hnl : '\n' ∉ line) (m : Message)
    (hp : pMessage (stripCR line) = some (m, [])) :
    codecDecode (line ++ '\n' :: rest) = .ok (some (m, rest)) := by
  unfold codecDecode
  rw [findLine_append line rest hnl]
  simp only [hp]

/-! ### Claim theorems -/

/-- C1 (counterexample): a `start` whose dependency-mount phase partially
fails does not roll back: with `app` mounting fine and its resource `res`
failing, the error comes back but `app` stays in the container map, which
is no longer the pre-call map; and with both mounts failing the error
returned is the last failure, not the first. -/
theorem claim_c1_counterexample :
    mountOne fxEnvResFail fxState fxApp = .ok fxIdleApp ∧
    mountOne fxEnvResFail fxState fxRes = .error (.mountError "boom") ∧
    (State.start fxEnvResFail fxState fxApp).1 = .err (.mountError "boom") ∧
    fxState.containers.lookup fxApp = none ∧
    Containers.lookup (State.start fxEnvResFail fxState fxApp).2.1.containers fxApp
      = some fxIdleApp ∧
    (State.start fxEnvBothFail fxState fxApp).1 = .err (.mountError "res") ∧
    mountOne fxEnvBothFail fxState fxApp = .error (.mountError "app") :=
  ⟨rfl, rfl, rfl, rfl, rfl, rfl, rfl⟩

/-- C1 (amended): when the dependency-mount phase of `start` partially
fails — the container is installed, not mounted, no resource is missing,
and the failure list is non-empty with last element `(m', error e)` — the
call returns `e` (the last failure, `failed.pop()`), every successfully
mounted container stays inserted in the container map (no rollback),
entries outside the need-mount set are untouched, and no event is
emitted. -/
theorem claim_c1_amended (env : Env) (st : State) (c : Container) (npk : Npk)
    (key : Option Unit)
    (h1 : st.npk c = some (npk, key))
    (h2 : st.containers.lookup c = none)
    (h3 : missingResource st npk = none)
    (m' : Container) (e : Error)
    (hlast : (((needMountList st c npk).map (fun m => (m, mountOne env st m))).filter
        (fun p => !p.2.isOk)).getLast? = some (m', .error e)) :
    (State.start env st c).1 = .err e ∧
    (∀ d mc, d ∈ needMountList st c npk → mountOne env st d = .ok mc →
      Containers.lookup (State.start env st c).2.1.containers d = some mc) ∧
    (∀ d, d ∉ needMountList st c npk →
      Containers.lookup (State.start env st c).2.1.containers d = st.containers.lookup d) ∧
    (State.start env st c).2.2 = [] := by
  have hn : (needMountList st c npk).find? (fun m => (st.npk m).isNone) = none :=
    needMount_find_none st c npk key h1 h2 h3
  have hf : (mountPhase env st (needMountList st c npk)).1 = some e :=
    mountPhase_fst_fail env st _ hn m' e hlast
  have hs := start_mount_fail env st c npk key h1 h2 h3 e hf
  rw [hs]
  refine ⟨rfl, ?_, ?_, rfl⟩
  · intro d mc hd hmc
    show Containers.lookup (mountPhase env st (needMountList st c npk)).2.containers d
        = some mc
    rw [mountPhase_snd env st _ hn]
    exact foldl_minsert_lookup env st d mc hmc _ st.containers hd
  · intro d hd
    show Containers.lookup (mountPhase env st (needMountList st c npk)).2.containers d
        = st.containers.lookup d
    rw [mountPhase_snd env st _ hn]
    exact foldl_minsert_not_mem d _ _ (fun q hq => by
      rcases List.mem_map.mp hq with ⟨x, hx, rfl⟩
      exact fun he => hd (he ▸ hx))

/-- C1 (amended, witness): the partial-failure scenario of the
counterexample instantiates the amended theorem. -/
theorem claim_c1_amended_witness :
    (State.start fxEnvResFail fxState fxApp).1 = .err (.mountError "boom") ∧
    Containers.lookup (State.start fxEnvResFail fxState fxApp).2.1.containers fxApp
      = some fxIdleApp :=
  ⟨(claim_c1_amended fxEnvResFail fxState fxApp ⟨fxManifestApp⟩ none rfl rfl rfl fxRes
      (.mountError "boom") rfl).1,
   (claim_c1_amended fxEnvResFail fxState fxApp ⟨fxManifestApp⟩ none rfl rfl rfl fxRes
      (.mountError "boom") rfl).2.1 fxApp fxIdleApp (by decide) rfl⟩

/-- C2: the `Mount` console request does not enumerate per-identity
results: mounting `[app, res]` where `app` succeeds and `res` fails
replies `Response::Mount(vec![])` — an empty result list — while `app` was
inserted into the map and `res` was not ("Not yet implemented: error
handling for bulk mounts"). -/
theorem claim_c2 :
    consoleMount fxEnvResFail fxState [fxApp, fxRes]
      = .ok (.mount [], ⟨fxState.repositories, [(fxApp, fxIdleApp)]⟩, []) ∧
    consoleRequest fxEnvResFail fxState (.mount [fxApp, fxRes])
      = .ok (.mount [], ⟨fxState.repositories, [(fxApp, fxIdleApp)]⟩, []) ∧
    mountOne fxEnvResFail fxState fxApp = .ok fxIdleApp ∧
    mountOne fxEnvResFail fxState fxRes = .error (.mountError "boom") :=
  ⟨rfl, rfl, rfl, rfl⟩

/-- C3: starting an installed resource container (manifest without init)
is rejected with `StartContainerResource` only when it is already mounted;
when it is not mounted, the pre-check is skipped, the resource is mounted,
and `init_argv` panics with "Attempt to use init from resource container"
instead of returning the typed error. -/
theorem claim_c3 :
    (State.start fxEnv fxStateResMounted fxRes).1 = .err (.startContainerResource fxRes) ∧
    (State.start fxEnv fxState fxRes).1 = .panic "Attempt to use init from resource container" ∧
    Containers.lookup (State.start fxEnv fxState fxRes).2.1.containers fxRes
      = some ⟨fxRes, fxManifestRes, "/run/res:0.0.1", .loopback "/dev/loop0", none⟩ :=
  ⟨rfl, rfl, rfl⟩

/-- C4 (counterexample): a normal exit with code exactly 128 does not
yield `Signaled(0)`: `Signal::try_from(0)` fails and the wait task panics
with "Invalid signal offset" (the same happens for any code at or above
128 + 32). -/
theorem claim_c4_counterexample :
    waitDecodeStep (.exited 1 128) = some (.panic "Invalid signal offset") ∧
    waitDecodeStep (.exited 1 128) ≠ some (.ok (.signaled 0)) ∧
    waitDecodeStep (.exited 1 160) = some (.panic "Invalid signal offset") :=
  ⟨rfl, by decide, rfl⟩

/-- C4 (amended): the wait task decodes a normal exit with code `c < 128`
to `Exit(c)` and a code `c ≥ 128` with `c − 128` a valid signal number
(1..=31) to `Signaled(c − 128)`; for `c ≥ 128` outside that range
`Signal::try_from` fails and the task panics ("Invalid signal offset"); a
signaled report keeps its signal. -/
theorem claim_c4_amended (pid code : Int) (sig : Nat) (dump : Bool) :
    (code < 128 → waitDecodeStep (.exited pid code) = some (.ok (.exit code))) ∧
    (128 ≤ code → (code - 128 < 1 ∨ 31 < code - 128) →
      waitDecodeStep (.exited pid code) = some (.panic "Invalid signal offset")) ∧
    (128 ≤ code → 1 ≤ code - 128 → code - 128 ≤ 31 →
      waitDecodeStep (.exited pid code) = some (.ok (.signaled (code - 128).toNat))) ∧
    waitDecodeStep (.signaled pid sig dump) = some (.ok (.signaled sig)) := by
  refine ⟨?_, ?_, ?_, rfl⟩
  · intro h
    simp only [waitDecodeStep, SIGNAL_OFFSET]
    rw [if_neg (by omega)]
  · intro h1 h2
    simp only [waitDecodeStep, SIGNAL_OFFSET, signalTryFrom]
    rw [if_pos (by omega), if_neg (by omega)]
  · intro h1 h2 h3
    simp only [waitDecodeStep, SIGNAL_OFFSET, signalTryFrom]
    rw [if_pos (by omega), if_pos (by omega)]

/-- C4 (amended, witness): codes 0, 137 and 160 and a signaled report with
signal 11, instantiating the amended theorem. -/
theorem claim_c4_amended_witness :
    waitDecodeStep (.exited 1 0) = some (.ok (.exit 0)) ∧
    waitDecodeStep (.exited 1 160) = some (.panic "Invalid signal offset") ∧
    waitDecodeStep (.exited 1 137) = some (.ok (.signaled 9)) ∧
    waitDecodeStep (.signaled 1 11 false) = some (.ok (.signaled 11)) :=
  ⟨(claim_c4_amended 1 0 11 false).1 (by decide),
   (claim_c4_amended 1 160 11 false).2.1 (by decide) (by decide),
   (claim_c4_amended 1 137 11 false).2.2.1 (by decide) (by decide) (by decide),
   (claim_c4_amended 1 137 11 false).2.2.2⟩

/-- C5: stopping a created or started launcher process SIGTERMs the
negative pid (the process group); when the wait task resolves within the
timeout it is awaited right away; on timeout a SIGKILL of the group
follows and the wait task is awaited unconditionally; when the SIGTERM
fails with ESRCH the wait task's result is awaited and returned as-is
(errors propagate, a status comes back untouched); any successful stop
returns the handle in the `Stopped` state. -/
theorem claim_c5 (p : IslandProcess) (pid : Nat) (io0 io1 : Bool) (t : Nat) (env : StopEnv)
    (hp : p = .created pid io0 io1 ∨ p = .started pid io0 io1) :
    ((p.stop t env).1.head? = some (-(pid : Int), SIGTERM)) ∧
    (env.sigterm = .ok () → env.waitWithinTimeout = true →
      p.stop t env = stopFinish env io0 io1 [(-(pid : Int), SIGTERM)]) ∧
    (env.sigterm = .ok () → env.waitWithinTimeout = false → env.sigkill = .ok () →
      p.stop t env
        = stopFinish env io0 io1 [(-(pid : Int), SIGTERM), (-(pid : Int), SIGKILL)]) ∧
    (env.sigterm = .error ESRCH →
      p.stop t env = stopFinish env io0 io1 [(-(pid : Int), SIGTERM)]) ∧
    (∀ e, env.sigterm = .error ESRCH → env.waitResult = .error e →
      (p.stop t env).2 = .err e) ∧
    (∀ s, env.sigterm = .error ESRCH → env.waitResult = .ok s →
      (io0 = true → env.ioStop0 = .ok ()) → (io1 = true → env.ioStop1 = .ok ()) →
      (p.stop t env).2 = .ok (.stopped, s)) ∧
    (∀ q s, (p.stop t env).2 = .ok (q, s) → q = .stopped) := by
  have hstop : p.stop t env = stopFrom pid io0 io1 env := by
    rcases hp with h | h <;> subst h <;> rfl
  rw [hstop]
  refine ⟨?_, ?_, ?_, ?_, ?_, ?_, ?_⟩
  · simp only [stopFrom]
    split
    · split
      · rw [stopFinish_fst]
        rfl
      · split
        · rfl
        · rw [stopFinish_fst]
          rfl
    · split
      · rw [stopFinish_fst]
        rfl
      · rfl
  · intro h1 h2
    simp only [stopFrom, h1, h2]
    simp
  · intro h1 h2 h3
    simp only [stopFrom, h1, h2, h3]
    simp
  · intro h1
    simp only [stopFrom, h1]
    simp [ESRCH]
  · intro e h1 h2
    simp only [stopFrom, h1]
    exact stopFinish_err env io0 io1 _ e h2
  · intro s h1 h2 hio0 hio1
    simp only [stopFrom, h1]
    exact stopFinish_ok env io0 io1 _ s h2 hio0 hio1
  · intro q s h
    simp only [stopFrom] at h
    split at h
    · split at h
      · exact stopFinish_stopped env io0 io1 _ q s h
      · split at h
        · exact RtResult.noConfusion h
        · exact stopFinish_stopped env io0 io1 _ q s h
    · split at h
      · exact stopFinish_stopped env io0 io1 _ q s h
      · exact RtResult.noConfusion h

/-- C5 (witness): stopping pid 7 in the timeout environment records the
SIGTERM and SIGKILL of the process group and returns the stopped handle
with the SIGKILL status; in the ESRCH environment the wait task's exit
status comes back as-is. -/
theorem claim_c5_witness :
    ((IslandProcess.created 7 false false).stop 5 fxStopEnv).1
      = [(-7, SIGTERM), (-7, SIGKILL)] ∧
    ((IslandProcess.created 7 false false).stop 5 fxStopEnv).2
      = .ok (.stopped, .signaled 9) ∧
    ((IslandProcess.started 7 false false).stop 5 fxStopEnvEsrch).2 = .ok (.stopped, .exit 7) :=
  ⟨by
    rw [(claim_c5 (.created 7 false false) 7 false false 5 fxStopEnv (Or.inl rfl)).2.2.1
      rfl rfl rfl]
    rfl,
   by
    rw [(claim_c5 (.created 7 false false) 7 false false 5 fxStopEnv (Or.inl rfl)).2.2.1
      rfl rfl rfl]
    rfl,
   (claim_c5 (.started 7 false false) 7 false false 5 fxStopEnvEsrch (Or.inr rfl)).2.2.2.2.2.1
     (.exit 7) rfl rfl (fun h => by cases h) (fun h => by cases h)⟩

/-- C6: for a mounted container `c` with entry `mc`, `umount` (with a
mount control that can unmount) fails with `UmountBusy` exactly when `mc`
has a running process or is a resource container (no init) referenced in
the mount table of a container with a running process; otherwise it
returns ok and removes the entry from the container map. -/
theorem claim_c6 (env : Env) (st : State) (c : Container) (mc : MountedContainer)
    (hm : st.containers.lookup c = some mc) (hu : env.umountOk c = true) :
    ((State.umount env st c).1 = .err (.umountBusy c) ↔
      (mc.process.isSome = true ∨
        (mc.manifest.init = none ∧ referencedByRunning st.containers c = true))) ∧
    (mc.process.isSome = false →
      (mc.manifest.init = none → referencedByRunning st.containers c = false) →
      State.umount env st c = (.ok (), { st with containers := st.containers.erase c })) := by
  simp only [State.umount, hm]
  constructor
  · by_cases hp : mc.process.isSome = true
    · rw [if_pos hp]
      exact ⟨fun _ => Or.inl hp, fun _ => rfl⟩
    · rw [if_neg hp]
      by_cases hr : (mc.manifest.init.isNone && referencedByRunning st.containers c) = true
      · rw [if_pos hr]
        simp only [Bool.and_eq_true, Option.isNone_iff_eq_none] at hr
        exact ⟨fun _ => Or.inr ⟨hr.1, hr.2⟩, fun _ => rfl⟩
      · rw [if_neg hr, if_pos hu]
        constructor
        · intro h
          exact RtResult.noConfusion h
        · intro h
          rcases h with h | h
          · exact absurd h hp
          · have hb : (mc.manifest.init.isNone && referencedByRunning st.containers c)
                = true := by
              rw [h.1, h.2]
              rfl
            exact absurd hb hr
  · intro h1 h2
    have hc1 : ¬(mc.process.isSome = true) := by
      rw [h1]
      exact Bool.false_ne_true
    have hc2 : ¬((mc.manifest.init.isNone && referencedByRunning st.containers c) = true) := by
      cases hi : mc.manifest.init with
      | none => simp [h2 hi]
      | some v => simp
    rw [if_neg hc1, if_neg hc2, if_pos hu]

/-- C6 (witness): `res` mounted and referenced by the running `app` is
busy; with `app` gone, unmounting `res` succeeds and removes it. -/
theorem claim_c6_witness :
    fxStateBusy.containers.lookup fxRes = some fxMountedRes ∧
    (State.umount fxEnv fxStateBusy fxRes).1 = .err (.umountBusy fxRes) ∧
    State.umount fxEnv fxStateResMounted fxRes
      = (.ok (),
         { fxStateResMounted with containers := fxStateResMounted.containers.erase fxRes }) :=
  ⟨rfl,
   ((claim_c6 fxEnv fxStateBusy fxRes fxMountedRes rfl rfl).1).mpr (Or.inr ⟨rfl, rfl⟩),
   (claim_c6 fxEnv fxStateResMounted fxRes fxMountedRes rfl rfl).2 rfl (fun _ => rfl)⟩

/-- C7 (counterexample): lower-component failures during `stop` and
`umount` are not all translated into typed API errors: a launcher-stop
failure aborts the engine with "Failed to terminate process", and a
mount-control unmount failure aborts with "Failed to umount". -/
theorem claim_c7_counterexample :
    (State.stop fxEnvStopFail fxStateBusy fxApp 5).1 = .panic "Failed to terminate process" ∧
    (State.umount fxEnvUmountFail fxStateResMounted fxRes).1 = .panic "Failed to umount" :=
  ⟨rfl, rfl⟩

/-- C7 (amended): errors that the engine operations do return (`.err`) are
translated by `console_request` into `Response::Err` with the API error
taxonomy (`Error::toApi`) and sent as the reply; but a launcher failure to
stop a running container's process, or a mount-control failure to unmount
a non-busy container, is `expect`ed — the engine panics instead of
replying. -/
theorem claim_c7_amended (env : Env) (st : State) (c : Container) (t : Nat) :
    (∀ e st' evs, State.start env st c = (.err e, st', evs) →
      consoleRequest env st (.start c) = .ok (.err e.toApi, st', evs)) ∧
    (∀ e st' evs, State.stop env st c t = (.err e, st', evs) →
      consoleRequest env st (.stop c t) = .ok (.err e.toApi, st', evs)) ∧
    (∀ e st', State.umount env st c = (.err e, st') →
      consoleRequest env st (.umount c) = .ok (.err e.toApi, st', [])) ∧
    (∀ mc pr, st.containers.lookup c = some mc → mc.process = some pr →
      ∀ er, env.launcherStop c = .error er →
        (State.stop env st c t).1 = .panic "Failed to terminate process") ∧
    (∀ mc, st.containers.lookup c = some mc → mc.process = none →
      mc.manifest.init.isSome = true → env.umountOk c = false →
      (State.umount env st c).1 = .panic "Failed to umount") := by
  refine ⟨?_, ?_, ?_, ?_, ?_⟩
  · intro e st' evs h
    simp only [consoleRequest, h]
  · intro e st' evs h
    simp only [consoleRequest, h]
  · intro e st' h
    simp only [consoleRequest, h]
  · intro mc pr hm hpr er hstop
    simp only [State.stop, hm, hpr, hstop]
  · intro mc hm hpr hinit hu
    have hnone : mc.manifest.init.isNone = false := by
      cases hi : mc.manifest.init with
      | none => rw [hi] at hinit; cases hinit
      | some v => rfl
    simp only [State.umount, hm]
    rw [if_neg (by rw [hpr]; exact Bool.false_ne_true)]
    rw [if_neg (by rw [hnone]; simp)]
    rw [if_neg (by rw [hu]; exact Bool.false_ne_true)]

/-- C7 (amended, witness): stopping a never-started container yields the
translated `StopContainerNotStarted` reply, while a failing launcher stop
on the running app panics. -/
theorem claim_c7_amended_witness :
    consoleRequest fxEnv fxState (.stop fxApp 5)
      = .ok (.err (Error.stopContainerNotStarted fxApp).toApi, fxState, []) ∧
    (State.stop fxEnvStopFail fxStateBusy fxApp 5).1 = .panic "Failed to terminate process" :=
  ⟨(claim_c7_amended fxEnv fxState fxApp 5).2.1 (.stopContainerNotStarted fxApp) fxState [] rfl,
   (claim_c7_amended fxEnvStopFail fxStateBusy fxApp 5).2.2.2.1 fxRunningApp ⟨42, none⟩ rfl rfl
     (.osError "kill" "EPERM") rfl⟩

/-- C8: while a response is outstanding (the client loop's stored oneshot
slot is occupied), a further submitted request is not sent on the
connection: its oneshot is resolved immediately with `PendingRequest` and
the stored slot is unchanged. -/
theorem claim_c8 (env : ClientEnv) (j id : Nat) (req : ClientRequest) :
    clientStep env (some j) (.fromRequests (some (req, id)))
      = { pending := some j, sent := [], replies := [(id, .error .pendingRequest)],
          notifications := [], broke := none, panicked := none } :=
  rfl

/-- C9: the codec round-trips every well-formed message: `encode` appends
the serialized message plus `\n` to the buffer, the serialization contains
no newline, and `decode` of the encoded buffer returns the message with an
empty remainder. -/
theorem claim_c9 (m : Message) (h : m.wf = true) :
    codecEncode m [] = encMessage m ++ ['\n'] ∧
    '\n' ∉ encMessage m ∧
    codecDecode (codecEncode m []) = .ok (some (m, [])) := by
  refine ⟨rfl, noNL_encMessage m h, ?_⟩
  have hp := pMessage_spec m h []
  rw [List.append_nil] at hp
  have henc : codecEncode m [] = encMessage m ++ '\n' :: [] := by
    unfold codecEncode
    rw [List.nil_append]
  rw [henc]
  exact codecDecode_line (encMessage m) [] (noNL_encMessage m h) m
    (by rw [stripCR_encMessage]; exact hp)

/-- C9 (witness): the sample mount-response message round-trips through
the codec. -/
theorem claim_c9_witness :
    fxMessage.wf = true ∧
    codecDecode (codecEncode fxMessage []) = .ok (some (fxMessage, [])) :=
  ⟨by decide, (claim_c9 fxMessage (by decide)).2.2⟩

/-- C10: unmounting a container that is not in the container map fails
with `UmountBusy` — the same error as for a busy container — not with a
distinct not-mounted or invalid-container error, and the state is
unchanged. -/
theorem claim_c10 (env : Env) (st : State) (c : Container)
    (h : st.containers.lookup c = none) :
    State.umount env st c = (.err (.umountBusy c), st) := by
  unfold State.umount
  rw [h]

/-- C10 (witness): unmounting the never-mounted app in the initial state
yields `UmountBusy`. -/
theorem claim_c10_witness :
    fxState.containers.lookup fxApp = none ∧
    State.umount fxEnv fxState fxApp = (.err (.umountBusy fxApp), fxState) :=
  ⟨rfl, claim_c10 fxEnv fxState fxApp rfl⟩

end Northstar
